import Mathlib

set_option maxHeartbeats 1000000

/-!
A shallow embedding of the Person/Director/Actor/Movie CRUD model of the
repository (src/unnamed/part_000 holds Person.mjs, src/unnamed/part_001 holds
Movie.mjs, src/docs/assignment6/src/m/Director.mjs holds Director.mjs), with
theorems about its validation, association maintenance and persistence
behaviour.  JavaScript objects keyed by integer-like strings are modelled as
association lists keyed by `Int` (movie collections by `String`), object
references are modelled as keys into the corresponding collection, and the
primitive values flowing through form slots are modelled by `JSVal`.
-/

namespace MovieApp

/-- A JavaScript primitive value as it appears in the modelled slots and
records: `undef` models `undefined`, `num` an integer number, `str` a string.
The application only passes integers, strings or undefined in these
positions. -/
inductive JSVal where
  | undef : JSVal
  | num : Int → JSVal
  | str : String → JSVal
  deriving DecidableEq, Repr

/-- JS truthiness of a primitive: `undefined`, `0` and the empty string are
falsy. -/
def truthy : JSVal → Bool
  | .undef => false
  | .num n => n != 0
  | .str s => s != ""

/-- The maximal leading digit run of a character list. -/
def digitsTaken : List Char → List Char
  | [] => []
  | c :: cs => if c.isDigit then c :: digitsTaken cs else []

/-- Value of a digit list read in base 10. -/
def digitsVal (cs : List Char) : Int :=
  cs.foldl (fun acc c => acc * 10 + (Int.ofNat (c.toNat - 48))) 0

/-- JS `parseInt` on a string: an optional sign followed by a maximal digit
prefix; `none` models `NaN` (no digits). -/
def parseIntStr (s : String) : Option Int :=
  match s.toList with
  | '-' :: rest =>
    match digitsTaken rest with
    | [] => none
    | ds => some (-(digitsVal ds))
  | '+' :: rest =>
    match digitsTaken rest with
    | [] => none
    | ds => some (digitsVal ds)
  | cs =>
    match digitsTaken cs with
    | [] => none
    | ds => some (digitsVal ds)

/-- JS `parseInt` on a primitive value; `parseInt(undefined)` is `NaN`, an
integer number parses to itself. -/
def parseIntJS : JSVal → Option Int
  | .undef => none
  | .num n => some n
  | .str s => parseIntStr s

/-- Modelled from the spec: `isIntegerOrIntegerString` of lib/util.mjs, which
is not under src/.  It tests for an integer number or a string that is an
optionally minus-signed run of digits (regex style full match). -/
def isIntegerOrIntegerString : JSVal → Bool
  | .num _ => true
  | .str s =>
    match s.toList with
    | '-' :: rest => !rest.isEmpty && rest.all Char.isDigit
    | cs => !cs.isEmpty && cs.all Char.isDigit
  | .undef => false

/-- JS property-key coercion onto an integer-keyed collection: a value
reaches the key `n` exactly when it is the number `n` or the canonical decimal
string of `n` (JS coerces the key to a string; the modelled collections are
keyed by canonical decimal strings). -/
def asKey : JSVal → Option Int
  | .undef => none
  | .num n => some n
  | .str s =>
    match parseIntStr s with
    | some n => if toString n = s then some n else none
    | none => none

/-- JS `s.trim() === ""`: true exactly when every character is whitespace
(including the empty string). -/
def jsBlank (s : String) : Bool :=
  s.toList.all Char.isWhitespace

/-- The string payload of a primitive (used only after a check has established
that the value is a string). -/
def strOf : JSVal → String
  | .str s => s
  | _ => ""

/-- A primitive that is a string with non-blank trim. -/
def strNonBlank : JSVal → Bool
  | .str s => !jsBlank s
  | _ => false

/-- Association-list read, first matching key (JS object property read). -/
def mget {K V : Type} [DecidableEq K] : List (K × V) → K → Option V
  | [], _ => none
  | (k0, v0) :: t, k => if k0 = k then some v0 else mget t k

/-- Association-list write (JS property assignment): overwrite in place, or
append when the key is absent. -/
def mput {K V : Type} [DecidableEq K] : List (K × V) → K → V → List (K × V)
  | [], k, v => [(k, v)]
  | (k0, v0) :: t, k, v => if k0 = k then (k, v) :: t else (k0, v0) :: mput t k v

/-- Association-list delete (JS `delete obj[k]`), removing the first binding. -/
def mdel {K V : Type} [DecidableEq K] : List (K × V) → K → List (K × V)
  | [], _ => []
  | (k0, v0) :: t, k => if k0 = k then t else (k0, v0) :: mdel t k

/-- In-place update of the value stored under a key, if present. -/
def mmod {K V : Type} [DecidableEq K] (l : List (K × V)) (k : K) (f : V → V) :
    List (K × V) :=
  match l with
  | [] => []
  | (k0, v0) :: t => if k0 = k then (k0, f v0) :: t else (k0, v0) :: mmod t k f

/-- A JS map used as a set of string keys (movie-ID back-reference maps map
each key to itself, so only the key list is modelled): adding a key. -/
def sadd (l : List String) (x : String) : List String :=
  if x ∈ l then l else l ++ [x]

/-- Removing a key from a key-set list. -/
def sdel (l : List String) (x : String) : List String :=
  l.filter (fun y => y != x)

/-- Adding an integer key to a key list if absent. -/
def saddI (l : List Int) (x : Int) : List Int :=
  if x ∈ l then l else l ++ [x]

/-- The constraint-violation taxonomy of lib/errorTypes.mjs (described in the
spec), together with the two JavaScript runtime errors the modelled code can
raise: `referenceError` for the use of an identifier that the enclosing module
does not import (`IntervalConstraintViolation` in Movie.mjs,
`PatternConstraintViolation` in Person.mjs), and `typeError` for a property
access on `undefined`. -/
inductive Violation where
  | noViolation
  | mandatoryValue (msg : String)
  | range (msg : String)
  | pattern (msg : String)
  | uniqueness (msg : String)
  | referentialIntegrity (msg : String)
  | frozenValue (msg : String)
  | interval (msg : String)
  | constraintViolation (msg : String)
  | referenceError (msg : String)
  | typeError (msg : String)
  deriving DecidableEq, Repr

/-- The Person entity (src/unnamed/part_000): `_personId`, `_name`, optional
`_agent`. -/
structure Person where
  personId : Int
  name : String
  agent : Option Int
  deriving DecidableEq, Repr

/-- The Director entity (src/docs/assignment6/src/m/Director.mjs): a Person
plus the `_directedMovies` back-reference map, modelled by its key list. -/
structure Director where
  personId : Int
  name : String
  agent : Option Int
  directedMovies : List String
  deriving DecidableEq, Repr

/-- Modelled from the spec for its fields: Actor.mjs is not under src/; per the
spec an Actor is a Person with the symmetric `actedInMovies` back-reference
map, maintained the same way as Director.directedMovies. -/
structure Actor where
  personId : Int
  name : String
  agent : Option Int
  actedInMovies : List String
  deriving DecidableEq, Repr

/-- Person.checkPersonId (src/unnamed/part_000:203): a falsy id is accepted
(it may be optional as an IdRef); otherwise parseInt must produce an integer,
and it must be at least 1. -/
def Person.checkPersonId (id : JSVal) : Violation :=
  if truthy id = false then .noViolation
  else
    match parseIntJS id with
    | none => .range "The person ID must be a positive integer!"
    | some n =>
      if n < 1 then .range "The person ID must be a positive integer!"
      else .noViolation

/-- Person.checkPersonIdAsId (src/unnamed/part_000:219): parseInt the
candidate, a NaN result is a MandatoryValue violation; then
Person.checkPersonId on the parsed integer; then uniqueness against the keys
of the direct type collection. -/
def Person.checkPersonIdAsId (id : JSVal) (directTypeKeys : List Int) :
    Violation :=
  match parseIntJS id with
  | none =>
    .mandatoryValue "A positive integer value for the person ID is required!"
  | some n =>
    match Person.checkPersonId (.num n) with
    | .noViolation =>
      if n ∈ directTypeKeys then
        .uniqueness "There is already a record with this person ID!"
      else .noViolation
    | v => v

/-- Person.checkPersonIdAsIdRef (src/unnamed/part_000:237):
Person.checkPersonId on the raw value and, when the raw value is truthy,
existence of the raw value as a key of Person.instances. -/
def Person.checkPersonIdAsIdRef (id : JSVal) (personKeys : List Int) :
    Violation :=
  match Person.checkPersonId id with
  | .noViolation =>
    if truthy id then
      match asKey id with
      | some n =>
        if n ∈ personKeys then .noViolation
        else .referentialIntegrity "There is no person record with this person ID!"
      | none =>
        .referentialIntegrity "There is no person record with this person ID!"
    else .noViolation
  | v => v

/-- Person.checkName (src/unnamed/part_000:259): mandatory, must be a string
with non-blank trim; names longer than 120 characters fall into the pattern
branch, which constructs PatternConstraintViolation, an identifier Person.mjs
does not import, so evaluating that branch raises a ReferenceError. -/
def Person.checkName (t : JSVal) : Violation :=
  if truthy t = false then .mandatoryValue "A name must be provided!"
  else
    match t with
    | .str s =>
      if jsBlank s then .range "The name must be a non-empty string!"
      else if 120 < s.length then
        .referenceError "PatternConstraintViolation is not defined"
      else .noViolation
    | _ => .range "The name must be a non-empty string!"

/-- Person.checkAgent (src/unnamed/part_000:283): a falsy value is accepted,
otherwise parseInt must produce an integer of at least 1. -/
def Person.checkAgent (id : JSVal) : Violation :=
  if truthy id = false then .noViolation
  else
    match parseIntJS id with
    | none => .range "The person ID must be a positive integer!"
    | some n =>
      if n < 1 then .range "The person ID must be a positive integer!"
      else .noViolation

/-- The slot record of the Person constructor. -/
structure PersonSlots where
  personId : JSVal
  name : JSVal
  agent : JSVal
  deriving DecidableEq, Repr

/-- The Person constructor (src/unnamed/part_000:191): the personId setter
validates with checkPersonIdAsId against the direct type collection and stores
the parsed integer; the name setter validates with checkName; the agent setter
runs only under a truthiness guard.  A violation aborts construction (the JS
setter throws). -/
def Person.mkPerson (directTypeKeys : List Int) (s : PersonSlots) :
    Except Violation Person :=
  match Person.checkPersonIdAsId s.personId directTypeKeys with
  | .noViolation =>
    match Person.checkName s.name with
    | .noViolation =>
      let base : Person :=
        { personId := (parseIntJS s.personId).getD 0
          name := strOf s.name
          agent := none }
      if truthy s.agent then
        match Person.checkAgent s.agent with
        | .noViolation => .ok { base with agent := some ((parseIntJS s.agent).getD 0) }
        | v => .error v
      else .ok base
    | v => .error v
  | v => .error v

/-- The Director constructor (src/docs/assignment6/src/m/Director.mjs:20):
the Person constructor run with Director as the direct type (uniqueness is
checked against Director.instances), then `_directedMovies` initialised
empty. -/
def Director.mkDirector (directorKeys : List Int) (s : PersonSlots) :
    Except Violation Director :=
  match Person.mkPerson directorKeys s with
  | .ok p =>
    .ok { personId := p.personId, name := p.name, agent := p.agent
          directedMovies := [] }
  | .error v => .error v

/-- Modelled from the spec: the Actor constructor (Actor.mjs is not under
src/), symmetric to Director with an empty `actedInMovies`. -/
def Actor.mkActor (actorKeys : List Int) (s : PersonSlots) :
    Except Violation Actor :=
  match Person.mkPerson actorKeys s with
  | .ok p =>
    .ok { personId := p.personId, name := p.name, agent := p.agent
          actedInMovies := [] }
  | .error v => .error v

/-- Modelled from the spec: the Enumeration helper (lib/Enumeration.mjs is not
under src/) maps an ordered label list to 1-based integer codes;
MovieCategoryEL is built over two labels, so TVSERIESEPISODE = 1,
BIOGRAPHY = 2 and MAX = 2. -/
def MovieCategoryEL.TVSERIESEPISODE : Int := 1

/-- The 1-based code of the Biography label. -/
def MovieCategoryEL.BIOGRAPHY : Int := 2

/-- The number of labels of the enumeration. -/
def MovieCategoryEL.MAX : Int := 2

/-- A JS Date value as (year, 0-based month, day of month).  The code only
builds dates whose day is within the month, so day overflow is not modelled;
comparison is lexicographic. -/
structure JSDate where
  year : Int
  month : Int
  day : Int
  deriving DecidableEq, Repr

/-- `new Date(y, m, d)`: JS months are 0-based and a month outside 0..11 is
normalised into the year. -/
def mkDate (y m d : Int) : JSDate :=
  { year := y + m / 12, month := m % 12, day := d }

/-- Date order (lexicographic on year, month, day). -/
def JSDate.lt (a b : JSDate) : Bool :=
  if a.year ≠ b.year then decide (a.year < b.year)
  else if a.month ≠ b.month then decide (a.month < b.month)
  else decide (a.day < b.day)

/-- The Movie entity (src/unnamed/part_001): `_director` is an object
reference into Director.instances, modelled by its key; `_actor` is a map of
person-id keys to Actor object references, modelled by its key list;
`_episodeNo` is stored unparsed, as in the source. -/
structure Movie where
  movieID : String
  title : String
  releaseDate : JSDate
  director : Option Int
  actor : List Int
  category : Option Int
  tvSeriesName : Option String
  episodeNo : Option JSVal
  about : Option String
  deriving DecidableEq, Repr

/-- The stored `_category` read back as a primitive (the getter yields
`undefined` when the property was never set). -/
def optIntToJS : Option Int → JSVal
  | none => .undef
  | some n => .num n

/-- An optional stored string read back as a primitive. -/
def optStrToJS : Option String → JSVal
  | none => .undef
  | some s => .str s

/-- Truthiness of the stored `_category`. -/
def optTruthy : Option Int → Bool
  | none => false
  | some n => n != 0

/-- Movie.checkMovieID (src/unnamed/part_001:44): a falsy value is accepted
here; a truthy value must be a string with non-blank trim. -/
def Movie.checkMovieID (movieID : JSVal) : Violation :=
  if truthy movieID = false then .noViolation
  else
    match movieID with
    | .str s =>
      if jsBlank s then .range "The Movie ID must be a non-empty string!"
      else .noViolation
    | _ => .range "The Movie ID must be a non-empty string!"

/-- Movie.checkMovieIDAsId (src/unnamed/part_001:53): checkMovieID, then
mandatory, then uniqueness against the keys of Movie.instances. -/
def Movie.checkMovieIDAsId (movieID : JSVal) (movieKeys : List String) :
    Violation :=
  match Movie.checkMovieID movieID with
  | .noViolation =>
    if truthy movieID = false then
      .mandatoryValue "A value for the Movie ID must be provided!"
    else
      match movieID with
      | .str s =>
        if s ∈ movieKeys then
          .uniqueness "There is already a movie record with this Movie ID!"
        else .noViolation
      | _ => .noViolation
  | v => v

/-- Movie.checkTitle (src/unnamed/part_001:77): mandatory, a string with
non-blank trim, at most 120 characters (PatternConstraintViolation is
imported by Movie.mjs, so the long-title branch is a Pattern violation). -/
def Movie.checkTitle (t : JSVal) : Violation :=
  if truthy t = false then .mandatoryValue "A title must be provided!"
  else
    match t with
    | .str s =>
      if jsBlank s then .range "The title must be a non-empty string!"
      else if 120 < s.length then
        .pattern "The Title must be fewer 120 characters long!"
      else .noViolation
    | _ => .range "The title must be a non-empty string!"

/-- Movie.checkReleaseDate (src/unnamed/part_001:108).  YEAR_FIRST_MOVIE is
`new Date(1895, 12, 28)`; JS months are 0-based, so the constant denotes
1896-01-28.  A date before it is meant to be an IntervalConstraintViolation,
but that identifier is not among the imports of Movie.mjs, so evaluating the
branch raises a ReferenceError.  The candidate is modelled as either undefined
or an already-parsed date. -/
def Movie.checkReleaseDate (y : Option JSDate) : Violation :=
  match y with
  | none => .mandatoryValue "A release date must be provided!"
  | some d =>
    if JSDate.lt d (mkDate 1895 12 28) then
      .referenceError "IntervalConstraintViolation is not defined"
    else .noViolation

/-- Movie.checkDirector (src/unnamed/part_001:129): optional; a truthy id is
checked with Person.checkPersonIdAsIdRef.  The director setter never invokes
this function. -/
def Movie.checkDirector (director_id : JSVal) (personKeys : List Int) :
    Violation :=
  if truthy director_id = false then .noViolation
  else Person.checkPersonIdAsIdRef director_id personKeys

/-- Movie.checkActor (src/unnamed/part_001:159): optional; a truthy id is
checked with Person.checkPersonIdAsIdRef.  addPerson never invokes this
function. -/
def Movie.checkActor (person_id : JSVal) (personKeys : List Int) : Violation :=
  if truthy person_id = false then .noViolation
  else Person.checkPersonIdAsIdRef person_id personKeys

/-- Movie.checkCategory (src/unnamed/part_001:203): undefined is accepted
(optional); otherwise the value must be an integer or integer string whose
parse lies between 1 and MovieCategoryEL.MAX. -/
def Movie.checkCategory (c : JSVal) : Violation :=
  if c = .undef then .noViolation
  else if isIntegerOrIntegerString c ∧ 1 ≤ (parseIntJS c).getD 0 ∧
      (parseIntJS c).getD 0 ≤ MovieCategoryEL.MAX then .noViolation
  else .range "Invalid value for category!"

/-- Movie.checkTvSeriesName (src/unnamed/part_001:229): mandatory, a string
with non-blank trim. -/
def Movie.checkTvSeriesName (t : JSVal) : Violation :=
  if truthy t = false then
    .mandatoryValue "A tvSeriesName must be provided!"
  else if strNonBlank t then .noViolation
  else .range "The tvSeriesName must be a non-empty string!"

/-- Movie.checkEpisodeNo (src/unnamed/part_001:248): `cat` is parseInt of the
category context; mandatory when the category is TVSERIESEPISODE and the
candidate is falsy; a violation when the category is anything else and the
candidate is truthy; a truthy candidate must be a positive integer or integer
string. -/
def Movie.checkEpisodeNo (sA : JSVal) (c : JSVal) : Violation :=
  let cat := parseIntJS c
  if cat = some MovieCategoryEL.TVSERIESEPISODE ∧ truthy sA = false then
    .mandatoryValue "An episode number must be provided for a textmovie!"
  else if cat ≠ some MovieCategoryEL.TVSERIESEPISODE ∧ truthy sA then
    .constraintViolation "An episode number must not be provided if the movie is not a TV series!"
  else if truthy sA ∧
      ¬ (isIntegerOrIntegerString sA ∧ 1 ≤ (parseIntJS sA).getD 0) then
    .range "The episode number must be a positive integer!"
  else .noViolation

/-- Movie.checkAbout (src/unnamed/part_001:274): mandatory when the category
is BIOGRAPHY and the candidate is falsy; a violation when the category is
anything else and the candidate is truthy; a truthy candidate must be a string
with non-blank trim. -/
def Movie.checkAbout (a : JSVal) (c : JSVal) : Violation :=
  let cat := parseIntJS c
  if cat = some MovieCategoryEL.BIOGRAPHY ∧ truthy a = false then
    .mandatoryValue "A biography movie record must have an about field!"
  else if cat ≠ some MovieCategoryEL.BIOGRAPHY ∧ truthy a then
    .constraintViolation "An about field value must not be provided if the movie is not a biography!"
  else if truthy a ∧ strNonBlank a = false then
    .range "The about field value must be a non-empty string!"
  else .noViolation

/-- The director collection (Director.instances), keyed by person id. -/
abbrev DirectorMap := List (Int × Director)

/-- The actor collection (Actor.instances), keyed by person id. -/
abbrev ActorMap := List (Int × Actor)

/-- A director slot value: a primitive (an id reference or undefined), an
array of id references, or an object reference carrying a personId
property. -/
inductive RefArg where
  | val (v : JSVal)
  | arr (l : List JSVal)
  | obj (personId : Int)
  deriving DecidableEq, Repr

/-- JS truthiness of a director slot value: arrays and objects are always
truthy. -/
def RefArg.truthyArg : RefArg → Bool
  | .val v => truthy v
  | .arr _ => true
  | .obj _ => true

/-- An element handed to addPerson: an id reference or an object reference
carrying a personId property. -/
inductive RefElem where
  | val (v : JSVal)
  | obj (personId : Int)
  deriving DecidableEq, Repr

/-- An actor slot value: undefined, an array of id references, or a map whose
values are object references (modelled by the personId list of its values in
key order). -/
inductive ActorArg where
  | undef
  | arr (l : List JSVal)
  | objs (pids : List Int)
  deriving DecidableEq, Repr

/-- JS truthiness of an actor slot value. -/
def ActorArg.truthyArg : ActorArg → Bool
  | .undef => false
  | .arr _ => true
  | .objs _ => true

/-- Movie `set movieID` (src/unnamed/part_001:68). -/
def Movie.setMovieID (movieKeys : List String) (m : Movie) (movieID : JSVal) :
    Except Violation Movie :=
  match Movie.checkMovieIDAsId movieID movieKeys with
  | .noViolation => .ok { m with movieID := strOf movieID }
  | v => .error v

/-- Movie `set title` (src/unnamed/part_001:90). -/
def Movie.setTitle (m : Movie) (t : JSVal) : Except Violation Movie :=
  match Movie.checkTitle t with
  | .noViolation => .ok { m with title := strOf t }
  | v => .error v

/-- Movie `set releaseDate` (src/unnamed/part_001:99): on NoConstraintViolation
the value is stored through `new Date(y)`, which reproduces the same date. -/
def Movie.setReleaseDate (m : Movie) (y : Option JSDate) :
    Except Violation Movie :=
  match Movie.checkReleaseDate y with
  | .noViolation => .ok { m with releaseDate := y.getD (mkDate 1970 0 1) }
  | v => .error v

/-- Movie `set director` (src/unnamed/part_001:139).  A falsy value removes
the movie from the previous director's directedMovies and clears the
reference.  Otherwise an array is replaced by its first element, an object
contributes its personId, the previous back-reference (if any) is removed,
and the movie installs Director.instances[director_id] without any check: when
the key does not resolve, `_director` becomes undefined and the following
directedMovies update raises a TypeError.  The returned map and movie carry
all mutations applied before the error, as the JS objects are mutated in
place. -/
def Movie.setDirector (directors : DirectorMap) (m : Movie) (p : RefArg) :
    DirectorMap × Movie × Option Violation :=
  if p.truthyArg = false then
    match m.director with
    | some oldId =>
      (mmod directors oldId
        (fun d => { d with directedMovies := sdel d.directedMovies m.movieID }),
       { m with director := none }, none)
    | none => (directors, m, none)
  else
    let director_id : JSVal :=
      match p with
      | .arr l => l.headD .undef
      | .val v => v
      | .obj pid => .num pid
    let directors1 : DirectorMap :=
      match m.director with
      | some oldId =>
        mmod directors oldId
          (fun d => { d with directedMovies := sdel d.directedMovies m.movieID })
      | none => directors
    match asKey director_id with
    | some k =>
      match mget directors1 k with
      | some _ =>
        (mmod directors1 k
          (fun d => { d with directedMovies := sadd d.directedMovies m.movieID }),
         { m with director := some k }, none)
      | none =>
        (directors1, { m with director := none },
         some (.typeError "Cannot read properties of undefined reading directedMovies"))
    | none =>
      (directors1, { m with director := none },
       some (.typeError "Cannot read properties of undefined reading directedMovies"))

/-- Movie addPerson (src/unnamed/part_001:170): an id reference is
parseInt-ed, an object contributes its personId; a falsy result (NaN or 0)
silently does nothing; otherwise the movie installs
Actor.instances[person_id] without any check: an unresolved key leaves an
undefined-valued entry in `_actor` (the key is still recorded) and the
actedInMovies update raises a TypeError. -/
def Movie.addPerson (actors : ActorMap) (m : Movie) (a : RefElem) :
    ActorMap × Movie × Option Violation :=
  let person_id : Option Int :=
    match a with
    | .val v => parseIntJS v
    | .obj pid => some pid
  match person_id with
  | none => (actors, m, none)
  | some pid =>
    if pid = 0 then (actors, m, none)
    else
      match mget actors pid with
      | some _ =>
        (mmod actors pid
          (fun ac => { ac with actedInMovies := sadd ac.actedInMovies m.movieID }),
         { m with actor := saddI m.actor pid }, none)
      | none =>
        (actors, { m with actor := saddI m.actor pid },
         some (.typeError "Cannot read properties of undefined reading actedInMovies"))

/-- addPerson folded over a list of elements; an error stops the loop (the JS
exception propagates out of the `for` loop of `set actor`). -/
def Movie.setActorList (actors : ActorMap) (m : Movie) :
    List RefElem → ActorMap × Movie × Option Violation
  | [] => (actors, m, none)
  | e :: rest =>
    match Movie.addPerson actors m e with
    | (a1, m1, none) => Movie.setActorList a1 m1 rest
    | (a1, m1, some v) => (a1, m1, some v)

/-- Movie `set actor` (src/unnamed/part_001:190): `_actor` is reset to an
empty map, then addPerson runs for each element of an array of id references,
or for each value of a map of object references; `set actor` on undefined
raises a TypeError (Object.keys of undefined). -/
def Movie.setActor (actors : ActorMap) (m : Movie) (a : ActorArg) :
    ActorMap × Movie × Option Violation :=
  let m0 := { m with actor := ([] : List Int) }
  match a with
  | .arr l => Movie.setActorList actors m0 (l.map RefElem.val)
  | .objs pids => Movie.setActorList actors m0 (pids.map RefElem.obj)
  | .undef => (actors, m0, some (.typeError "Object.keys called on undefined"))

/-- Movie `set category` (src/unnamed/part_001:214): a
FrozenValueConstraintViolation when the stored category is already truthy,
otherwise Movie.checkCategory; on success the parsed integer is stored. -/
def Movie.setCategory (m : Movie) (c : JSVal) : Except Violation Movie :=
  let validationResult :=
    if optTruthy m.category then
      Violation.frozenValue "The category cannot be changed!"
    else Movie.checkCategory c
  if validationResult = .noViolation then
    .ok { m with category := some ((parseIntJS c).getD 0) }
  else .error validationResult

/-- Movie `set tvSeriesName` (src/unnamed/part_001:239). -/
def Movie.setTvSeriesName (m : Movie) (t : JSVal) : Except Violation Movie :=
  match Movie.checkTvSeriesName t with
  | .noViolation => .ok { m with tvSeriesName := some (strOf t) }
  | v => .error v

/-- Movie `set episodeNo` (src/unnamed/part_001:265): checkEpisodeNo runs
against the stored category; on success the raw value is stored. -/
def Movie.setEpisodeNo (m : Movie) (v : JSVal) : Except Violation Movie :=
  match Movie.checkEpisodeNo v (optIntToJS m.category) with
  | .noViolation => .ok { m with episodeNo := some v }
  | w => .error w

/-- Movie `set about` (src/unnamed/part_001:290): checkAbout runs against the
stored category; on success the value (a string on every reachable success
path, since the callers guard on truthiness) is stored. -/
def Movie.setAbout (m : Movie) (v : JSVal) : Except Violation Movie :=
  match Movie.checkAbout v (optIntToJS m.category) with
  | .noViolation => .ok { m with about := some (strOf v) }
  | w => .error w

/-- The slot record of the Movie constructor. -/
structure MovieSlots where
  movieID : JSVal
  title : JSVal
  releaseDate : Option JSDate
  director : RefArg
  actor : ActorArg
  category : JSVal
  tvSeriesName : JSVal
  episodeNo : JSVal
  about : JSVal
  deriving DecidableEq, Repr

/-- A JS object before its properties are set: the placeholder values are
overwritten by the setters (mandatory fields) or left untouched behind their
option/none defaults. -/
def movie0 : Movie :=
  { movieID := "", title := "", releaseDate := mkDate 1970 0 1
    director := none, actor := [], category := none
    tvSeriesName := none, episodeNo := none, about := none }

/-- The Movie constructor (src/unnamed/part_001:29): the setters run in source
order (movieID, title, releaseDate, director, actor, then the optional
category, tvSeriesName, episodeNo, about each under a truthiness guard).
Director/actor back-reference mutations made before a later setter throws are
kept, matching the JS objects mutated in place; the returned maps carry
them. -/
def Movie.mkMovie (movieKeys : List String) (directors : DirectorMap)
    (actors : ActorMap) (s : MovieSlots) :
    DirectorMap × ActorMap × Except Violation Movie :=
  match Movie.setMovieID movieKeys movie0 s.movieID with
  | .error v => (directors, actors, .error v)
  | .ok m1 =>
    match Movie.setTitle m1 s.title with
    | .error v => (directors, actors, .error v)
    | .ok m2 =>
      match Movie.setReleaseDate m2 s.releaseDate with
      | .error v => (directors, actors, .error v)
      | .ok m3 =>
        match Movie.setDirector directors m3 s.director with
        | (d1, _, some v) => (d1, actors, .error v)
        | (d1, m4, none) =>
          match Movie.setActor actors m4 s.actor with
          | (a1, _, some v) => (d1, a1, .error v)
          | (a1, m5, none) =>
            match (if truthy s.category then Movie.setCategory m5 s.category
                   else .ok m5) with
            | .error v => (d1, a1, .error v)
            | .ok m6 =>
              match (if truthy s.tvSeriesName then
                       Movie.setTvSeriesName m6 s.tvSeriesName
                     else .ok m6) with
              | .error v => (d1, a1, .error v)
              | .ok m7 =>
                match (if truthy s.episodeNo then
                         Movie.setEpisodeNo m7 s.episodeNo
                       else .ok m7) with
                | .error v => (d1, a1, .error v)
                | .ok m8 =>
                  match (if truthy s.about then Movie.setAbout m8 s.about
                         else .ok m8) with
                  | .error v => (d1, a1, .error v)
                  | .ok m9 => (d1, a1, .ok m9)

/-- The whole in-memory state touched by the Movie class operations. -/
structure MovieDB where
  directors : DirectorMap
  actors : ActorMap
  movies : List (String × Movie)
  deriving DecidableEq, Repr

/-- Movie.add (src/unnamed/part_001:338): construct; on an exception log and
leave the collection untouched (back-reference mutations made inside the
failed constructor persist); on success insert under the movie's id. -/
def Movie.add (db : MovieDB) (slots : MovieSlots) : MovieDB :=
  match Movie.mkMovie (db.movies.map Prod.fst) db.directors db.actors slots with
  | (d1, a1, .error _) => { db with directors := d1, actors := a1 }
  | (d1, a1, .ok movie) =>
    { directors := d1, actors := a1
      movies := mput db.movies movie.movieID movie }

/-- Movie.destroy (src/unnamed/part_001:421): delete the entry if present;
nothing else is touched. -/
def Movie.destroy (db : MovieDB) (movieID : String) : MovieDB :=
  match mget db.movies movieID with
  | some _ => { db with movies := mdel db.movies movieID }
  | none => db

/-- The slot record of Movie.update (src/unnamed/part_001:359); tvSeriesName
is not among the destructured fields. -/
structure UpdateSlots where
  movieID : String
  title : JSVal
  releaseDate : Option JSDate
  director : RefArg
  actor : ActorArg
  category : JSVal
  episodeNo : JSVal
  about : JSVal
  deriving DecidableEq, Repr

/-- The state threaded through the statements of Movie.update's try block:
the director and actor collections, the movie object being mutated in place,
and the pending exception, if one was thrown (later statements are then
skipped). -/
abbrev UpdState := DirectorMap × ActorMap × Movie × Option Violation

/-- `if (title && movie.title !== title) movie.title = title;` of Movie.update
(src/unnamed/part_001:364). -/
def updTitle (s : UpdateSlots) (st : UpdState) : UpdState :=
  match st with
  | (d, a, m, none) =>
    match (if truthy s.title ∧ s.title ≠ JSVal.str m.title then
             Movie.setTitle m s.title
           else .ok m) with
    | .ok m1 => (d, a, m1, none)
    | .error v => (d, a, m, some v)
  | st => st

/-- `if (releaseDate && movie.releaseDate !== releaseDate) ...`
(src/unnamed/part_001:368): a provided date always reaches the setter, since
`!==` on a Date object compares references. -/
def updReleaseDate (s : UpdateSlots) (st : UpdState) : UpdState :=
  match st with
  | (d, a, m, none) =>
    match (match s.releaseDate with
           | some _ => Movie.setReleaseDate m s.releaseDate
           | none => .ok m) with
    | .ok m1 => (d, a, m1, none)
    | .error v => (d, a, m, some v)
  | st => st

/-- `if (director && movie.director !== director) movie.director = director;`
(src/unnamed/part_001:372): a truthy slot always reaches the setter (the slot
is an id or array, never the stored object reference); the exception case
keeps the partially mutated movie and director map. -/
def updDirector (s : UpdateSlots) (st : UpdState) : UpdState :=
  match st with
  | (d, a, m, none) =>
    if RefArg.truthyArg s.director then
      match Movie.setDirector d m s.director with
      | (d1, m1, none) => (d1, a, m1, none)
      | (d1, m1, some v) => (d1, a, m1, some v)
    else st
  | st => st

/-- `if (actor && movie.actor !== actor) movie.actor = actor;`
(src/unnamed/part_001:376). -/
def updActor (s : UpdateSlots) (st : UpdState) : UpdState :=
  match st with
  | (d, a, m, none) =>
    if ActorArg.truthyArg s.actor then
      match Movie.setActor a m s.actor with
      | (a1, m1, none) => (d, a1, m1, none)
      | (a1, m1, some v) => (d, a1, m1, some v)
    else st
  | st => st

/-- The category case of Movie.update (src/unnamed/part_001:380): a truthy
slot is set when the stored category is undefined, throws FrozenValue when it
differs from the stored category (strict comparison, so a string never equals
a stored number), and does nothing when strictly equal; a slot that is the
empty string throws FrozenValue, because the `category` accessor exists on the
prototype and so the `in` test is always true. -/
def updCategory (s : UpdateSlots) (st : UpdState) : UpdState :=
  match st with
  | (d, a, m, none) =>
    match (if truthy s.category then
             match m.category with
             | none => Movie.setCategory m s.category
             | some cur =>
               if s.category ≠ JSVal.num cur then
                 .error (.frozenValue "The movie category must not be changed!")
               else .ok m
           else if s.category = JSVal.str "" then
             .error (.frozenValue "The movie category must not be unset!")
           else .ok m) with
    | .ok m1 => (d, a, m1, none)
    | .error v => (d, a, m, some v)
  | st => st

/-- `if (episodeNo && movie.episodeNo !== episodeNo) ...`
(src/unnamed/part_001:392): the stored raw value is compared strictly. -/
def updEpisodeNo (s : UpdateSlots) (st : UpdState) : UpdState :=
  match st with
  | (d, a, m, none) =>
    match (if truthy s.episodeNo ∧ m.episodeNo ≠ some s.episodeNo then
             Movie.setEpisodeNo m s.episodeNo
           else .ok m) with
    | .ok m1 => (d, a, m1, none)
    | .error v => (d, a, m, some v)
  | st => st

/-- `if (about && movie.about !== about) ...` (src/unnamed/part_001:396). -/
def updAbout (s : UpdateSlots) (st : UpdState) : UpdState :=
  match st with
  | (d, a, m, none) =>
    match (if truthy s.about ∧ optStrToJS m.about ≠ s.about then
             Movie.setAbout m s.about
           else .ok m) with
    | .ok m1 => (d, a, m1, none)
    | .error v => (d, a, m, some v)
  | st => st

/-- The try block of Movie.update (src/unnamed/part_001:363): the guarded
assignments run in source order; an exception skips the remaining ones, and
the mutations already applied (including director/actor map mutations) are
kept, as the JS objects are mutated in place. -/
def Movie.updateFields (directors : DirectorMap) (actors : ActorMap)
    (m : Movie) (s : UpdateSlots) :
    DirectorMap × ActorMap × Movie × Option Violation :=
  updAbout s (updEpisodeNo s (updCategory s (updActor s (updDirector s
    (updReleaseDate s (updTitle s (directors, actors, m, none)))))))

/-- Movie.update (src/unnamed/part_001:359): look up the movie, snapshot it
(cloneObject is modelled from the spec as a value snapshot, lib/util.mjs not
being under src/), apply the guarded setters, and on an exception restore the
snapshot into the collection; director/actor back-reference mutations are not
reverted.  An absent movie makes cloneObject fail on undefined before the try
block.  The reported violation, if any, is returned alongside the state. -/
def Movie.update (db : MovieDB) (s : UpdateSlots) : MovieDB × Option Violation :=
  match mget db.movies s.movieID with
  | none => (db, some (.typeError "Cannot read properties of undefined"))
  | some movie =>
    let objectBeforeUpdate := movie
    match Movie.updateFields db.directors db.actors movie s with
    | (d1, a1, _, some v) =>
      ({ directors := d1, actors := a1
         movies := mput db.movies s.movieID objectBeforeUpdate }, some v)
    | (d1, a1, m7, none) =>
      ({ directors := d1, actors := a1
         movies := mput db.movies s.movieID m7 }, none)

/-- The serialized form of a Person (Person.toJSON strips the underscore
prefixes; JSON.stringify omits absent optional properties). -/
structure PersonRecord where
  personId : Int
  name : String
  agent : Option Int
  deriving DecidableEq, Repr

/-- The serialized form of a Director (the inherited toJSON also copies
`_directedMovies`). -/
structure DirectorRecord where
  personId : Int
  name : String
  agent : Option Int
  directedMovies : List String
  deriving DecidableEq, Repr

/-- Modelled from the spec: the serialized form of an Actor (Actor.mjs is not
under src/), symmetric to Director. -/
structure ActorRecord where
  personId : Int
  name : String
  agent : Option Int
  actedInMovies : List String
  deriving DecidableEq, Repr

/-- The serialized form of a Movie.  Movie.toJSON (src/unnamed/part_001:314)
copies every underscore property, so the `director` and `actor` fields hold
the referenced person objects, which JSON.stringify serializes through their
own toJSON into nested person records: the persisted movie record embeds full
director/actor records, not bare id references. -/
structure MovieRecord where
  movieID : String
  title : String
  releaseDate : JSDate
  director : Option DirectorRecord
  actor : List ActorRecord
  category : Option Int
  tvSeriesName : Option String
  episodeNo : Option JSVal
  about : Option String
  deriving DecidableEq, Repr

/-- Person.toJSON (src/unnamed/part_000:310). -/
def Person.toJSON (p : Person) : PersonRecord :=
  { personId := p.personId, name := p.name, agent := p.agent }

/-- Director serialization through the inherited toJSON. -/
def Director.toJSON (d : Director) : DirectorRecord :=
  { personId := d.personId, name := d.name, agent := d.agent
    directedMovies := d.directedMovies }

/-- Modelled from the spec: Actor serialization, symmetric to Director. -/
def Actor.toJSON (a : Actor) : ActorRecord :=
  { personId := a.personId, name := a.name, agent := a.agent
    actedInMovies := a.actedInMovies }

/-- Movie.toJSON (src/unnamed/part_001:314) under the reference-as-key model:
the stored director/actor keys are resolved in the collections they point
into (a reference is never dangling in the states considered here) and the
referenced objects are serialized in full. -/
def Movie.toJSON (directors : DirectorMap) (actors : ActorMap) (m : Movie) :
    MovieRecord :=
  { movieID := m.movieID, title := m.title, releaseDate := m.releaseDate
    director := m.director.bind fun i => (mget directors i).map Director.toJSON
    actor := m.actor.filterMap fun i => (mget actors i).map Actor.toJSON
    category := m.category, tvSeriesName := m.tvSeriesName
    episodeNo := m.episodeNo, about := m.about }

/-- Person.saveAll (src/unnamed/part_000:415): serialize the direct person
collection (the modelled person collection holds only direct instances). -/
def Person.saveAll (persons : List (Int × Person)) :
    List (Int × PersonRecord) :=
  persons.map fun q => (q.1, Person.toJSON q.2)

/-- Director.saveAll (src/docs/assignment6/src/m/Director.mjs:142). -/
def Director.saveAll (directors : DirectorMap) :
    List (Int × DirectorRecord) :=
  directors.map fun q => (q.1, Director.toJSON q.2)

/-- Modelled from the spec: Actor.saveAll, symmetric to Director. -/
def Actor.saveAll (actors : ActorMap) : List (Int × ActorRecord) :=
  actors.map fun q => (q.1, Actor.toJSON q.2)

/-- Movie.saveAll (src/unnamed/part_001:471): JSON.stringify of
Movie.instances. -/
def Movie.saveAll (db : MovieDB) : List (String × MovieRecord) :=
  db.movies.map fun q => (q.1, Movie.toJSON db.directors db.actors q.2)

/-- A parsed person record handed back to the constructor. -/
def PersonRecord.toSlots (r : PersonRecord) : PersonSlots :=
  { personId := .num r.personId, name := .str r.name
    agent := optIntToJS r.agent }

/-- A parsed movie record handed back to the Movie constructor: the embedded
director record arrives as an object reference (only its personId is
consulted by the setter), the actor map as a map of object references. -/
def MovieRecord.toSlots (r : MovieRecord) : MovieSlots :=
  { movieID := .str r.movieID, title := .str r.title
    releaseDate := some r.releaseDate
    director := match r.director with
                | some dr => .obj dr.personId
                | none => .val .undef
    actor := .objs (r.actor.map ActorRecord.personId)
    category := optIntToJS r.category
    tvSeriesName := optStrToJS r.tvSeriesName
    episodeNo := r.episodeNo.getD .undef
    about := optStrToJS r.about }

/-- Movie.convertRec2Obj (src/unnamed/part_001:457): construct through the
validating constructor; on an exception log and return null (`none`).
Back-reference mutations made before the failure persist, as in the JS. -/
def Movie.convertRec2Obj (movieKeys : List String) (directors : DirectorMap)
    (actors : ActorMap) (movieRow : MovieRecord) :
    DirectorMap × ActorMap × Option Movie :=
  match Movie.mkMovie movieKeys directors actors movieRow.toSlots with
  | (d1, a1, .ok m) => (d1, a1, some m)
  | (d1, a1, .error _) => (d1, a1, none)

/-- The loop of Movie.retrieveAll: every stored record is converted and the
result — possibly null — is assigned into Movie.instances under its key. -/
def Movie.retrieveAllAux (directors : DirectorMap) (actors : ActorMap)
    (instances : List (String × Option Movie)) :
    List (String × MovieRecord) →
    DirectorMap × ActorMap × List (String × Option Movie)
  | [] => (directors, actors, instances)
  | (movieID, row) :: rest =>
    match Movie.convertRec2Obj (instances.map Prod.fst) directors actors row with
    | (d1, a1, mo) => Movie.retrieveAllAux d1 a1 (mput instances movieID mo) rest

/-- Movie.retrieveAll (src/unnamed/part_001:435), starting from the given
in-memory collection (empty after a clear). -/
def Movie.retrieveAll (storage : List (String × MovieRecord))
    (directors : DirectorMap) (actors : ActorMap)
    (instances : List (String × Option Movie)) :
    DirectorMap × ActorMap × List (String × Option Movie) :=
  Movie.retrieveAllAux directors actors instances storage

/-- The loop of Person.retrieveAll over the direct person records
(src/unnamed/part_000:396): each record is constructed through the validating
constructor; on an exception the record is logged and skipped, and no entry
is made.  The later merge of the subtype collections into Person.instances is
not modelled. -/
def Person.retrieveAllAux (instances : List (Int × Person)) :
    List (Int × PersonRecord) → List (Int × Person)
  | [] => instances
  | (key, rec) :: rest =>
    match Person.mkPerson (instances.map Prod.fst) rec.toSlots with
    | .ok p => Person.retrieveAllAux (mput instances key p) rest
    | .error _ => Person.retrieveAllAux instances rest

/-- The loop of Director.retrieveAll
(src/docs/assignment6/src/m/Director.mjs:116): each record is constructed as
a Director (uniqueness against the directors loaded so far), then
directedMovies is assigned from the record verbatim; a failing record is
logged and skipped.  The merge into Person.instances is not modelled. -/
def Director.retrieveAllAux (instances : DirectorMap) :
    List (Int × DirectorRecord) → DirectorMap
  | [] => instances
  | (key, rec) :: rest =>
    match Director.mkDirector (instances.map Prod.fst)
        { personId := .num rec.personId, name := .str rec.name
          agent := optIntToJS rec.agent } with
    | .ok d =>
      Director.retrieveAllAux
        (mput instances key { d with directedMovies := rec.directedMovies }) rest
    | .error _ => Director.retrieveAllAux instances rest

/-- Modelled from the spec: the loop of Actor.retrieveAll, symmetric to
Director (Actor.mjs is not under src/). -/
def Actor.retrieveAllAux (instances : ActorMap) :
    List (Int × ActorRecord) → ActorMap
  | [] => instances
  | (key, rec) :: rest =>
    match Actor.mkActor (instances.map Prod.fst)
        { personId := .num rec.personId, name := .str rec.name
          agent := optIntToJS rec.agent } with
    | .ok a =>
      Actor.retrieveAllAux
        (mput instances key { a with actedInMovies := rec.actedInMovies }) rest
    | .error _ => Actor.retrieveAllAux instances rest

/-- The save/clear/retrieve round trip in the order of the application view
code (persons, then the subtype collections, then movies). -/
def roundTrip (persons : List (Int × Person)) (db : MovieDB) :
    List (Int × Person) × DirectorMap × ActorMap ×
      List (String × Option Movie) :=
  let peopleStore := Person.saveAll persons
  let directorStore := Director.saveAll db.directors
  let actorStore := Actor.saveAll db.actors
  let movieStore := Movie.saveAll db
  let persons1 := Person.retrieveAllAux [] peopleStore
  let directors1 := Director.retrieveAllAux [] directorStore
  let actors1 := Actor.retrieveAllAux [] actorStore
  match Movie.retrieveAll movieStore directors1 actors1 [] with
  | (d2, a2, movies1) => (persons1, d2, a2, movies1)

/-! Sample entities used by concrete evaluations. -/

/-- A director with one directed movie, as in the generated test data. -/
def exDirector : Director :=
  { personId := 1, name := "Stephen Frears", agent := none
    directedMovies := ["10"] }

/-- A movie directed by person 1. -/
def exMovie : Movie :=
  { movieID := "10", title := "T", releaseDate := mkDate 1999 0 1
    director := some 1, actor := [], category := none
    tvSeriesName := none, episodeNo := none, about := none }

/-- The empty database. -/
def exEmptyDB : MovieDB := { directors := [], actors := [], movies := [] }

/-- A slot record whose releaseDate is 1800-01-01 and which is otherwise
valid. -/
def exSlots1800 : MovieSlots :=
  { movieID := .str "m1", title := .str "T"
    releaseDate := some (mkDate 1800 0 1)
    director := .val .undef, actor := .arr [], category := .undef
    tvSeriesName := .undef, episodeNo := .undef, about := .undef }

/-- A second director with no directed movies. -/
def exDirector2 : Director :=
  { personId := 2, name := "George Lucas", agent := none, directedMovies := [] }

/-- A persisted movie record with an empty title: its construction fails at
the title check whatever the collections hold. -/
def corruptRec : MovieRecord :=
  { movieID := "bad", title := "", releaseDate := mkDate 2000 0 1
    director := none, actor := [], category := none, tvSeriesName := none
    episodeNo := none, about := none }

/-- A valid persisted movie record with no references. -/
def goodRec : MovieRecord :=
  { movieID := "good", title := "T", releaseDate := mkDate 2000 0 1
    director := none, actor := [], category := none, tvSeriesName := none
    episodeNo := none, about := none }

/-- A persisted person record with an empty name. -/
def badPersonRec : PersonRecord := { personId := 1, name := "", agent := none }

/-- A valid persisted person record. -/
def goodPersonRec : PersonRecord :=
  { personId := 2, name := "Jane Doe", agent := none }

/-- A small previously-valid population: one direct person, one director and
one actor, and one TV-series-episode movie wired to both. -/
def wfPerson : Person := { personId := 3, name := "P", agent := none }

/-- The director of the sample population, back-referencing the movie. -/
def wfDirector : Director :=
  { personId := 1, name := "D", agent := none, directedMovies := ["m1"] }

/-- The actor of the sample population, back-referencing the movie. -/
def wfActor : Actor :=
  { personId := 2, name := "A", agent := none, actedInMovies := ["m1"] }

/-- The movie of the sample population. -/
def wfMovie : Movie :=
  { movieID := "m1", title := "T", releaseDate := mkDate 2000 0 1
    director := some 1, actor := [2], category := some 1
    tvSeriesName := some "S", episodeNo := some (.num 3), about := none }

/-- The direct person collection of the sample population. -/
def wfPersons : List (Int × Person) := [(3, wfPerson)]

/-- The sample database. -/
def wfDB : MovieDB :=
  { directors := [(1, wfDirector)], actors := [(2, wfActor)]
    movies := [("m1", wfMovie)] }

/-- Validity of a person collection entry: the key matches the stored id, the
id is positive, the name passes checkName without reaching the broken pattern
branch, and the agent, if any, is positive (all invariants that every entry
constructed through the validating setters satisfies). -/
def personOK (k : Int) (p : Person) : Bool :=
  decide (p.personId = k) && decide (1 ≤ p.personId) &&
  (p.name != "") && !(jsBlank p.name) && decide (p.name.length ≤ 120) &&
  (match p.agent with
   | none => true
   | some a2 => decide (1 ≤ a2))

/-- Validity of a director collection entry (the person part). -/
def directorOK (k : Int) (d : Director) : Bool :=
  decide (d.personId = k) && decide (1 ≤ d.personId) &&
  (d.name != "") && !(jsBlank d.name) && decide (d.name.length ≤ 120) &&
  (match d.agent with
   | none => true
   | some a2 => decide (1 ≤ a2))

/-- Validity of an actor collection entry (the person part). -/
def actorOK (k : Int) (a : Actor) : Bool :=
  decide (a.personId = k) && decide (1 ≤ a.personId) &&
  (a.name != "") && !(jsBlank a.name) && decide (a.name.length ≤ 120) &&
  (match a.agent with
   | none => true
   | some a2 => decide (1 ≤ a2))

/-- Validity of a movie collection entry against the referenced collections:
the key matches the id, the mandatory fields pass their checks, the category
block is consistent, every reference resolves, and the back-reference
invariant of section 4.3 holds (the referenced director's and actors' maps
contain this movie). -/
def movieOK (directors : DirectorMap) (actors : ActorMap) (k : String)
    (m : Movie) : Bool :=
  decide (m.movieID = k) && (m.movieID != "") && !(jsBlank m.movieID) &&
  (m.title != "") && !(jsBlank m.title) && decide (m.title.length ≤ 120) &&
  !(JSDate.lt m.releaseDate (mkDate 1895 12 28)) &&
  (match m.director with
   | none => true
   | some i =>
     match mget directors i with
     | some dd => decide (dd.personId = i) && decide (m.movieID ∈ dd.directedMovies)
     | none => false) &&
  decide m.actor.Nodup &&
  m.actor.all (fun i => decide (1 ≤ i) &&
    (match mget actors i with
     | some ac => decide (ac.personId = i) && decide (m.movieID ∈ ac.actedInMovies)
     | none => false)) &&
  (match m.category with
   | none => true
   | some c => decide (c = 1 ∨ c = 2)) &&
  (match m.episodeNo with
   | none => true
   | some v => decide (m.category = some 1) && truthy v &&
       isIntegerOrIntegerString v && decide (1 ≤ (parseIntJS v).getD 0)) &&
  (match m.about with
   | none => true
   | some s => decide (m.category = some 2) && (s != "") && !(jsBlank s)) &&
  (match m.tvSeriesName with
   | none => true
   | some s => (s != "") && !(jsBlank s))

/-- A previously-valid in-memory population: distinct keys everywhere and
every entry valid (exactly the state left behind by successful runs of the
validating constructors and association setters). -/
def WellFormed (persons : List (Int × Person)) (db : MovieDB) : Prop :=
  (persons.map Prod.fst).Nodup ∧ (db.directors.map Prod.fst).Nodup ∧
  (db.actors.map Prod.fst).Nodup ∧ (db.movies.map Prod.fst).Nodup ∧
  (∀ q ∈ persons, personOK q.1 q.2 = true) ∧
  (∀ q ∈ db.directors, directorOK q.1 q.2 = true) ∧
  (∀ q ∈ db.actors, actorOK q.1 q.2 = true) ∧
  (∀ q ∈ db.movies, movieOK db.directors db.actors q.1 q.2 = true)

/-! Association-list lemmas. -/

theorem mget_mput_self {K V : Type} [DecidableEq K] (l : List (K × V)) (k : K) (v : V) :
    mget (mput l k v) k = some v := by
  induction l with
  | nil => simp [mput, mget]
  | cons h t ih =>
    obtain ⟨k0, v0⟩ := h
    by_cases hk : k0 = k
    · simp [mput, hk, mget]
    · simp [mput, hk, mget, ih]

theorem mget_mput_ne {K V : Type} [DecidableEq K] (l : List (K × V)) (k k' : K) (v : V)
    (h : k ≠ k') : mget (mput l k v) k' = mget l k' := by
  induction l with
  | nil => simp [mput, mget, h]
  | cons hd t ih =>
    obtain ⟨k0, v0⟩ := hd
    by_cases hk : k0 = k
    · simp [mput, hk, mget, h]
    · simp [mput, hk, mget, ih]

theorem mput_of_not_mem {K V : Type} [DecidableEq K] (l : List (K × V)) (k : K) (v : V)
    (h : k ∉ l.map Prod.fst) : mput l k v = l ++ [(k, v)] := by
  induction l with
  | nil => simp [mput]
  | cons hd t ih =>
    obtain ⟨k0, v0⟩ := hd
    simp only [List.map_cons, List.mem_cons] at h
    push_neg at h
    simp [mput, Ne.symm h.1, ih h.2]

theorem mget_of_not_mem {K V : Type} [DecidableEq K] (l : List (K × V)) (k : K)
    (h : k ∉ l.map Prod.fst) : mget l k = none := by
  induction l with
  | nil => simp [mget]
  | cons hd t ih =>
    obtain ⟨k0, v0⟩ := hd
    simp only [List.map_cons, List.mem_cons] at h
    push_neg at h
    simp [mget, Ne.symm h.1, ih h.2]

theorem mget_mem {K V : Type} [DecidableEq K] (l : List (K × V)) (k : K) (v : V)
    (h : mget l k = some v) : (k, v) ∈ l := by
  induction l with
  | nil => simp [mget] at h
  | cons hd t ih =>
    obtain ⟨k0, v0⟩ := hd
    by_cases hk : k0 = k
    · subst hk
      simp [mget] at h
      simp [h]
    · simp [mget, hk] at h
      exact List.mem_cons_of_mem _ (ih h)

theorem mget_mmod_self {K V : Type} [DecidableEq K] (l : List (K × V)) (k : K) (f : V → V) :
    mget (mmod l k f) k = (mget l k).map f := by
  induction l with
  | nil => simp [mmod, mget]
  | cons hd t ih =>
    obtain ⟨k0, v0⟩ := hd
    by_cases hk : k0 = k
    · simp [mmod, hk, mget]
    · simp [mmod, hk, mget, ih]

theorem mget_mmod_ne {K V : Type} [DecidableEq K] (l : List (K × V)) (k k' : K) (f : V → V)
    (h : k ≠ k') : mget (mmod l k f) k' = mget l k' := by
  induction l with
  | nil => simp [mmod, mget]
  | cons hd t ih =>
    obtain ⟨k0, v0⟩ := hd
    by_cases hk : k0 = k
    · subst hk
      simp [mmod, mget, h]
    · simp [mmod, hk, mget, ih]

theorem mmod_keys {K V : Type} [DecidableEq K] (l : List (K × V)) (k : K) (f : V → V) :
    (mmod l k f).map Prod.fst = l.map Prod.fst := by
  induction l with
  | nil => simp [mmod]
  | cons hd t ih =>
    obtain ⟨k0, v0⟩ := hd
    by_cases hk : k0 = k
    · simp [mmod, hk]
    · simp [mmod, hk, ih]

theorem mmod_eq_self {K V : Type} [DecidableEq K] (l : List (K × V)) (k : K) (f : V → V)
    (h : ∀ v, mget l k = some v → f v = v) : mmod l k f = l := by
  induction l with
  | nil => simp [mmod]
  | cons hd t ih =>
    obtain ⟨k0, v0⟩ := hd
    by_cases hk : k0 = k
    · subst hk
      have := h v0 (by simp [mget])
      simp [mmod, this]
    · simp only [mget, hk, if_false] at h
      simp [mmod, hk, ih h]

theorem mget_mdel_self {K V : Type} [DecidableEq K] (l : List (K × V)) (k : K)
    (h : (l.map Prod.fst).Nodup) : mget (mdel l k) k = none := by
  induction l with
  | nil => simp [mdel, mget]
  | cons hd t ih =>
    obtain ⟨k0, v0⟩ := hd
    simp only [List.map_cons, List.nodup_cons] at h
    by_cases hk : k0 = k
    · subst hk
      simp [mdel, mget_of_not_mem _ _ h.1]
    · simp [mdel, hk, mget, ih h.2]

theorem mget_mdel_ne {K V : Type} [DecidableEq K] (l : List (K × V)) (k k' : K)
    (h : k ≠ k') : mget (mdel l k) k' = mget l k' := by
  induction l with
  | nil => simp [mdel, mget]
  | cons hd t ih =>
    obtain ⟨k0, v0⟩ := hd
    by_cases hk : k0 = k
    · subst hk
      simp [mdel, mget, h]
    · simp [mdel, hk, mget, ih]

/-! Key-set lemmas. -/

theorem mem_sadd (l : List String) (x : String) : x ∈ sadd l x := by
  by_cases h : x ∈ l <;> simp [sadd, h]

theorem sadd_of_mem (l : List String) (x : String) (h : x ∈ l) : sadd l x = l := by
  simp [sadd, h]

theorem not_mem_sdel (l : List String) (x : String) : x ∉ sdel l x := by
  simp [sdel]

theorem mem_sdel_of_ne (l : List String) (x y : String) (h : y ≠ x) :
    (y ∈ sdel l x) = (y ∈ l) := by
  simp [sdel, h]

/-! Lemmas about the director setter. -/

/-- Assigning a resolvable, truthy director id always succeeds: the previous
back-reference (if any) is removed, the new director entry gains the movie id,
and every other present key stays present. -/
theorem setDirector_assign (directors : DirectorMap) (m : Movie) (P : Int)
    (dp : Director) (hP : mget directors P = some dp) (hP0 : P ≠ 0) :
    ∃ d1, Movie.setDirector directors m (.val (.num P)) =
        (d1, { m with director := some P }, none) ∧
      (∃ dp1, mget d1 P = some dp1 ∧ m.movieID ∈ dp1.directedMovies) ∧
      (∀ X dx, X ≠ P → mget directors X = some dx →
        ∃ dx1, mget d1 X = some dx1) := by
  have htru : RefArg.truthyArg (.val (.num P)) = true := by
    simp [RefArg.truthyArg, truthy, hP0]
  rcases hdir : m.director with _ | R
  · refine ⟨mmod directors P
      (fun d => { d with directedMovies := sadd d.directedMovies m.movieID }),
      ?_, ?_, ?_⟩
    · unfold Movie.setDirector
      rw [htru]
      simp only [Bool.true_eq_false, if_false, hdir, asKey, hP]
    · refine ⟨{ dp with directedMovies := sadd dp.directedMovies m.movieID }, ?_, ?_⟩
      · rw [mget_mmod_self, hP]
        rfl
      · exact mem_sadd _ _
    · intro X dx hXP hX
      refine ⟨dx, ?_⟩
      rw [mget_mmod_ne _ _ _ _ (Ne.symm hXP), hX]
  · have hPx : ∃ dpx, mget (mmod directors R
        (fun d => { d with directedMovies := sdel d.directedMovies m.movieID }))
        P = some dpx := by
      by_cases hRP : R = P
      · subst hRP
        refine ⟨{ dp with directedMovies := sdel dp.directedMovies m.movieID }, ?_⟩
        rw [mget_mmod_self, hP]
        rfl
      · refine ⟨dp, ?_⟩
        rw [mget_mmod_ne _ _ _ _ hRP, hP]
    obtain ⟨dpx, hdpx⟩ := hPx
    refine ⟨mmod (mmod directors R
        (fun d => { d with directedMovies := sdel d.directedMovies m.movieID })) P
        (fun d => { d with directedMovies := sadd d.directedMovies m.movieID }),
      ?_, ?_, ?_⟩
    · unfold Movie.setDirector
      rw [htru]
      simp only [Bool.true_eq_false, if_false, hdir, asKey, hdpx]
    · refine ⟨{ dpx with directedMovies := sadd dpx.directedMovies m.movieID }, ?_, ?_⟩
      · rw [mget_mmod_self, hdpx]
        rfl
      · exact mem_sadd _ _
    · intro X dx hXP hX
      by_cases hRX : R = X
      · subst hRX
        refine ⟨{ dx with directedMovies := sdel dx.directedMovies m.movieID }, ?_⟩
        rw [mget_mmod_ne _ _ _ _ (Ne.symm hXP), mget_mmod_self, hX]
        rfl
      · refine ⟨dx, ?_⟩
        rw [mget_mmod_ne _ _ _ _ (Ne.symm hXP), mget_mmod_ne _ _ _ _ hRX, hX]

/-- Unsetting a movie's director removes the back-reference from the current
director and clears the reference. -/
theorem setDirector_unset (d1 : DirectorMap) (m1 : Movie) (P : Int)
    (hdir : m1.director = some P) :
    Movie.setDirector d1 m1 (.val .undef) =
      (mmod d1 P
        (fun d => { d with directedMovies := sdel d.directedMovies m1.movieID }),
       { m1 with director := none }, none) := by
  unfold Movie.setDirector
  simp only [RefArg.truthyArg, truthy, if_true, hdir]

/-- Reassigning a movie's director to a resolvable, truthy id first unlinks
the old director, then links the new one. -/
theorem setDirector_reassign (d1 : DirectorMap) (m1 : Movie) (P Q : Int)
    (dq1 : Director) (hdir : m1.director = some P) (hQ0 : Q ≠ 0)
    (hq : mget (mmod d1 P
      (fun d => { d with directedMovies := sdel d.directedMovies m1.movieID }))
      Q = some dq1) :
    Movie.setDirector d1 m1 (.val (.num Q)) =
      (mmod (mmod d1 P
        (fun d => { d with directedMovies := sdel d.directedMovies m1.movieID })) Q
        (fun d => { d with directedMovies := sadd d.directedMovies m1.movieID }),
       { m1 with director := some Q }, none) := by
  have htru : RefArg.truthyArg (.val (.num Q)) = true := by
    simp [RefArg.truthyArg, truthy, hQ0]
  unfold Movie.setDirector
  rw [htru]
  simp only [Bool.true_eq_false, if_false, hdir, asKey, hq]

/-! Result-shape lemmas for the single-field setters. -/

/-- A successful setTitle only rewrites the title. -/
theorem setTitle_ok (m : Movie) (t : JSVal) (m1 : Movie)
    (h : Movie.setTitle m t = .ok m1) : m1 = { m with title := strOf t } := by
  unfold Movie.setTitle at h
  try dsimp only at h
  repeat' split at h
  all_goals cases h
  all_goals rfl

/-- A successful setReleaseDate only rewrites the release date. -/
theorem setReleaseDate_ok (m : Movie) (y : Option JSDate) (m1 : Movie)
    (h : Movie.setReleaseDate m y = .ok m1) :
    m1 = { m with releaseDate := y.getD (mkDate 1970 0 1) } := by
  unfold Movie.setReleaseDate at h
  try dsimp only at h
  repeat' split at h
  all_goals cases h
  all_goals rfl

/-- A successful setCategory only rewrites the category. -/
theorem setCategory_ok (m : Movie) (c : JSVal) (m1 : Movie)
    (h : Movie.setCategory m c = .ok m1) :
    m1 = { m with category := some ((parseIntJS c).getD 0) } := by
  unfold Movie.setCategory at h
  try dsimp only at h
  repeat' split at h
  all_goals cases h
  all_goals rfl

/-- A successful setTvSeriesName only rewrites the tvSeriesName. -/
theorem setTvSeriesName_ok (m : Movie) (t : JSVal) (m1 : Movie)
    (h : Movie.setTvSeriesName m t = .ok m1) :
    m1 = { m with tvSeriesName := some (strOf t) } := by
  unfold Movie.setTvSeriesName at h
  try dsimp only at h
  repeat' split at h
  all_goals cases h
  all_goals rfl

/-- A successful setEpisodeNo only rewrites the episodeNo. -/
theorem setEpisodeNo_ok (m : Movie) (v : JSVal) (m1 : Movie)
    (h : Movie.setEpisodeNo m v = .ok m1) : m1 = { m with episodeNo := some v } := by
  unfold Movie.setEpisodeNo at h
  try dsimp only at h
  repeat' split at h
  all_goals cases h
  all_goals rfl

/-- A successful setAbout only rewrites the about field. -/
theorem setAbout_ok (m : Movie) (v : JSVal) (m1 : Movie)
    (h : Movie.setAbout m v = .ok m1) : m1 = { m with about := some (strOf v) } := by
  unfold Movie.setAbout at h
  try dsimp only at h
  repeat' split at h
  all_goals cases h
  all_goals rfl

/-- The director setter never touches any movie field other than the director
reference (regardless of outcome). -/
theorem setDirector_movie_fields (directors : DirectorMap) (m : Movie)
    (p : RefArg) :
    ∀ d1 m1 e1, Movie.setDirector directors m p = (d1, m1, e1) →
      m1.movieID = m.movieID ∧ m1.title = m.title ∧
      m1.releaseDate = m.releaseDate ∧ m1.actor = m.actor ∧
      m1.category = m.category ∧ m1.tvSeriesName = m.tvSeriesName ∧
      m1.episodeNo = m.episodeNo ∧ m1.about = m.about := by
  obtain ⟨mid, ti, rd, dir, act, catg, tvn, epn, abt⟩ := m
  rcases p with v | l | pid <;> rcases dir with _ | oldId <;>
    (intro d1 m1 e1 h; unfold Movie.setDirector at h; dsimp only at h;
     repeat' split at h) <;>
    (cases h; exact ⟨rfl, rfl, rfl, rfl, rfl, rfl, rfl, rfl⟩)

/-- addPerson never touches any movie field other than the actor map. -/
theorem addPerson_movie_fields (actors : ActorMap) (m : Movie) (a : RefElem) :
    ∀ a1 m1 e1, Movie.addPerson actors m a = (a1, m1, e1) →
      m1.movieID = m.movieID ∧ m1.title = m.title ∧
      m1.releaseDate = m.releaseDate ∧ m1.director = m.director ∧
      m1.category = m.category ∧ m1.tvSeriesName = m.tvSeriesName ∧
      m1.episodeNo = m.episodeNo ∧ m1.about = m.about := by
  intro a1 m1 e1 h
  unfold Movie.addPerson at h
  dsimp only at h
  repeat' split at h
  all_goals cases h
  all_goals exact ⟨rfl, rfl, rfl, rfl, rfl, rfl, rfl, rfl⟩

/-- setActorList never touches any movie field other than the actor map. -/
theorem setActorList_movie_fields (actors : ActorMap) (m : Movie)
    (elems : List RefElem) :
    ∀ a1 m1 e1, Movie.setActorList actors m elems = (a1, m1, e1) →
      m1.movieID = m.movieID ∧ m1.title = m.title ∧
      m1.releaseDate = m.releaseDate ∧ m1.director = m.director ∧
      m1.category = m.category ∧ m1.tvSeriesName = m.tvSeriesName ∧
      m1.episodeNo = m.episodeNo ∧ m1.about = m.about := by
  induction elems generalizing actors m with
  | nil =>
    intro a1 m1 e1 h
    cases h
    exact ⟨rfl, rfl, rfl, rfl, rfl, rfl, rfl, rfl⟩
  | cons e rest ih =>
    intro a1 m1 e1 h
    unfold Movie.setActorList at h
    split at h
    · rename_i ax mx hx
      have h0 := addPerson_movie_fields actors m e _ _ _ hx
      have h1 := ih _ _ _ _ _ h
      exact ⟨h1.1.trans h0.1, h1.2.1.trans h0.2.1, h1.2.2.1.trans h0.2.2.1,
        h1.2.2.2.1.trans h0.2.2.2.1, h1.2.2.2.2.1.trans h0.2.2.2.2.1,
        h1.2.2.2.2.2.1.trans h0.2.2.2.2.2.1,
        h1.2.2.2.2.2.2.1.trans h0.2.2.2.2.2.2.1,
        h1.2.2.2.2.2.2.2.trans h0.2.2.2.2.2.2.2⟩
    · rename_i ax mx vx hx
      have h0 := addPerson_movie_fields actors m e _ _ _ hx
      cases h
      exact h0

/-- The actor setter never touches any movie field other than the actor
map. -/
theorem setActor_movie_fields (actors : ActorMap) (m : Movie) (a : ActorArg) :
    ∀ a1 m1 e1, Movie.setActor actors m a = (a1, m1, e1) →
      m1.movieID = m.movieID ∧ m1.title = m.title ∧
      m1.releaseDate = m.releaseDate ∧ m1.director = m.director ∧
      m1.category = m.category ∧ m1.tvSeriesName = m.tvSeriesName ∧
      m1.episodeNo = m.episodeNo ∧ m1.about = m.about := by
  intro a1 m1 e1 h
  rcases a with _ | l | pids <;> (unfold Movie.setActor at h; dsimp only at h)
  · cases h
    exact ⟨rfl, rfl, rfl, rfl, rfl, rfl, rfl, rfl⟩
  · exact setActorList_movie_fields actors { m with actor := ([] : List Int) }
      (l.map RefElem.val) a1 m1 e1 h
  · exact setActorList_movie_fields actors { m with actor := ([] : List Int) }
      (pids.map RefElem.obj) a1 m1 e1 h

/-! Per-step analysis of Movie.update's try block. -/

/-- A pending exception skips the title statement. -/
theorem updTitle_err (s : UpdateSlots) (d : DirectorMap) (a : ActorMap)
    (m : Movie) (v : Violation) :
    updTitle s (d, a, m, some v) = (d, a, m, some v) := rfl

/-- A pending exception skips the releaseDate statement. -/
theorem updReleaseDate_err (s : UpdateSlots) (d : DirectorMap) (a : ActorMap)
    (m : Movie) (v : Violation) :
    updReleaseDate s (d, a, m, some v) = (d, a, m, some v) := rfl

/-- A pending exception skips the director statement. -/
theorem updDirector_err (s : UpdateSlots) (d : DirectorMap) (a : ActorMap)
    (m : Movie) (v : Violation) :
    updDirector s (d, a, m, some v) = (d, a, m, some v) := rfl

/-- A pending exception skips the actor statement. -/
theorem updActor_err (s : UpdateSlots) (d : DirectorMap) (a : ActorMap)
    (m : Movie) (v : Violation) :
    updActor s (d, a, m, some v) = (d, a, m, some v) := rfl

/-- A pending exception skips the category statement. -/
theorem updCategory_err (s : UpdateSlots) (d : DirectorMap) (a : ActorMap)
    (m : Movie) (v : Violation) :
    updCategory s (d, a, m, some v) = (d, a, m, some v) := rfl

/-- A pending exception skips the episodeNo statement. -/
theorem updEpisodeNo_err (s : UpdateSlots) (d : DirectorMap) (a : ActorMap)
    (m : Movie) (v : Violation) :
    updEpisodeNo s (d, a, m, some v) = (d, a, m, some v) := rfl

/-- A pending exception skips the about statement. -/
theorem updAbout_err (s : UpdateSlots) (d : DirectorMap) (a : ActorMap)
    (m : Movie) (v : Violation) :
    updAbout s (d, a, m, some v) = (d, a, m, some v) := rfl

/-- The title statement either succeeds touching only the title — and not even
that when the slot is absent or equal — or throws keeping the state. -/
theorem updTitle_cases (s : UpdateSlots) (d : DirectorMap) (a : ActorMap)
    (m : Movie) :
    (∃ m1, updTitle s (d, a, m, none) = (d, a, m1, none) ∧
      m1.movieID = m.movieID ∧ m1.releaseDate = m.releaseDate ∧
      m1.director = m.director ∧ m1.actor = m.actor ∧
      m1.category = m.category ∧ m1.tvSeriesName = m.tvSeriesName ∧
      m1.episodeNo = m.episodeNo ∧ m1.about = m.about ∧
      (truthy s.title = false ∨ s.title = JSVal.str m.title →
        m1.title = m.title)) ∨
    (∃ v, updTitle s (d, a, m, none) = (d, a, m, some v)) := by
  unfold updTitle
  dsimp only
  by_cases hc : truthy s.title ∧ s.title ≠ JSVal.str m.title
  · rw [if_pos hc]
    rcases ht : Movie.setTitle m s.title with v | m1
    · exact Or.inr ⟨v, rfl⟩
    · have hm1 := setTitle_ok _ _ _ ht
      subst hm1
      refine Or.inl ⟨_, rfl, rfl, rfl, rfl, rfl, rfl, rfl, rfl, rfl, ?_⟩
      intro hor
      rcases hor with h' | h'
      · have hT := hc.1
        rw [h'] at hT
        exact absurd hT (by decide)
      · exact absurd h' hc.2
  · rw [if_neg hc]
    exact Or.inl ⟨m, rfl, rfl, rfl, rfl, rfl, rfl, rfl, rfl, rfl, fun _ => rfl⟩

/-- The releaseDate statement either succeeds touching only the release date —
and not even that when the slot is absent — or throws keeping the state. -/
theorem updReleaseDate_cases (s : UpdateSlots) (d : DirectorMap) (a : ActorMap)
    (m : Movie) :
    (∃ m1, updReleaseDate s (d, a, m, none) = (d, a, m1, none) ∧
      m1.movieID = m.movieID ∧ m1.title = m.title ∧
      m1.director = m.director ∧ m1.actor = m.actor ∧
      m1.category = m.category ∧ m1.tvSeriesName = m.tvSeriesName ∧
      m1.episodeNo = m.episodeNo ∧ m1.about = m.about ∧
      (s.releaseDate = none → m1.releaseDate = m.releaseDate)) ∨
    (∃ v, updReleaseDate s (d, a, m, none) = (d, a, m, some v)) := by
  unfold updReleaseDate
  dsimp only
  rcases hrd : s.releaseDate with _ | dd
  · exact Or.inl ⟨m, rfl, rfl, rfl, rfl, rfl, rfl, rfl, rfl, rfl, fun _ => rfl⟩
  · rcases ht : Movie.setReleaseDate m (some dd) with v | m1
    · exact Or.inr ⟨v, rfl⟩
    · have hm1 := setReleaseDate_ok _ _ _ ht
      subst hm1
      refine Or.inl ⟨_, rfl, rfl, rfl, rfl, rfl, rfl, rfl, rfl, rfl, ?_⟩
      intro habs
      cases habs

/-- The director statement either succeeds touching only the movie's director
reference and the director map — and neither when the slot is falsy — or
throws. -/
theorem updDirector_cases (s : UpdateSlots) (d : DirectorMap) (a : ActorMap)
    (m : Movie) :
    (∃ d1 m1, updDirector s (d, a, m, none) = (d1, a, m1, none) ∧
      m1.movieID = m.movieID ∧ m1.title = m.title ∧
      m1.releaseDate = m.releaseDate ∧ m1.actor = m.actor ∧
      m1.category = m.category ∧ m1.tvSeriesName = m.tvSeriesName ∧
      m1.episodeNo = m.episodeNo ∧ m1.about = m.about ∧
      (RefArg.truthyArg s.director = false → d1 = d ∧ m1.director = m.director)) ∨
    (∃ d1 m1 v, updDirector s (d, a, m, none) = (d1, a, m1, some v)) := by
  unfold updDirector
  dsimp only
  by_cases hc : RefArg.truthyArg s.director = true
  · rw [if_pos hc]
    rcases hsd : Movie.setDirector d m s.director with ⟨dx, mx, ex⟩
    have hf := setDirector_movie_fields d m s.director dx mx ex hsd
    rcases ex with _ | v
    · refine Or.inl ⟨dx, mx, rfl, hf.1, hf.2.1, hf.2.2.1, hf.2.2.2.1,
        hf.2.2.2.2.1, hf.2.2.2.2.2.1, hf.2.2.2.2.2.2.1, hf.2.2.2.2.2.2.2, ?_⟩
      intro h'
      rw [h'] at hc
      cases hc
    · exact Or.inr ⟨dx, mx, v, rfl⟩
  · rw [if_neg hc]
    exact Or.inl ⟨d, m, rfl, rfl, rfl, rfl, rfl, rfl, rfl, rfl, rfl,
      fun _ => ⟨rfl, rfl⟩⟩

/-- The actor statement either succeeds touching only the movie's actor map
and the actor collection — and neither when the slot is falsy — or throws. -/
theorem updActor_cases (s : UpdateSlots) (d : DirectorMap) (a : ActorMap)
    (m : Movie) :
    (∃ a1 m1, updActor s (d, a, m, none) = (d, a1, m1, none) ∧
      m1.movieID = m.movieID ∧ m1.title = m.title ∧
      m1.releaseDate = m.releaseDate ∧ m1.director = m.director ∧
      m1.category = m.category ∧ m1.tvSeriesName = m.tvSeriesName ∧
      m1.episodeNo = m.episodeNo ∧ m1.about = m.about ∧
      (ActorArg.truthyArg s.actor = false → a1 = a ∧ m1.actor = m.actor)) ∨
    (∃ a1 m1 v, updActor s (d, a, m, none) = (d, a1, m1, some v)) := by
  unfold updActor
  dsimp only
  by_cases hc : ActorArg.truthyArg s.actor = true
  · rw [if_pos hc]
    rcases hsa : Movie.setActor a m s.actor with ⟨ax, mx, ex⟩
    have hf := setActor_movie_fields a m s.actor ax mx ex hsa
    rcases ex with _ | v
    · refine Or.inl ⟨ax, mx, rfl, hf.1, hf.2.1, hf.2.2.1, hf.2.2.2.1,
        hf.2.2.2.2.1, hf.2.2.2.2.2.1, hf.2.2.2.2.2.2.1, hf.2.2.2.2.2.2.2, ?_⟩
      intro h'
      rw [h'] at hc
      cases hc
    · exact Or.inr ⟨ax, mx, v, rfl⟩
  · rw [if_neg hc]
    exact Or.inl ⟨a, m, rfl, rfl, rfl, rfl, rfl, rfl, rfl, rfl, rfl,
      fun _ => ⟨rfl, rfl⟩⟩

/-- The category statement either succeeds touching only the category — and
not even that when the slot is falsy — or throws keeping the state. -/
theorem updCategory_cases (s : UpdateSlots) (d : DirectorMap) (a : ActorMap)
    (m : Movie) :
    (∃ m1, updCategory s (d, a, m, none) = (d, a, m1, none) ∧
      m1.movieID = m.movieID ∧ m1.title = m.title ∧
      m1.releaseDate = m.releaseDate ∧ m1.director = m.director ∧
      m1.actor = m.actor ∧ m1.tvSeriesName = m.tvSeriesName ∧
      m1.episodeNo = m.episodeNo ∧ m1.about = m.about ∧
      (truthy s.category = false → m1.category = m.category)) ∨
    (∃ v, updCategory s (d, a, m, none) = (d, a, m, some v)) := by
  unfold updCategory
  dsimp only
  by_cases hc : truthy s.category = true
  · rw [if_pos hc]
    rcases hmc : m.category with _ | cur
    · rcases hsc : Movie.setCategory m s.category with v | m1
      · exact Or.inr ⟨v, rfl⟩
      · have hm1 := setCategory_ok _ _ _ hsc
        subst hm1
        refine Or.inl ⟨_, rfl, rfl, rfl, rfl, rfl, rfl, rfl, rfl, rfl, ?_⟩
        intro h'
        rw [h'] at hc
        cases hc
    · dsimp only
      by_cases hne : s.category ≠ JSVal.num cur
      · rw [if_pos hne]
        exact Or.inr ⟨_, rfl⟩
      · rw [if_neg hne]
        exact Or.inl ⟨m, rfl, rfl, rfl, rfl, rfl, rfl, rfl, rfl, rfl,
          fun _ => hmc⟩
  · rw [if_neg hc]
    by_cases he : s.category = JSVal.str ""
    · rw [if_pos he]
      exact Or.inr ⟨_, rfl⟩
    · rw [if_neg he]
      exact Or.inl ⟨m, rfl, rfl, rfl, rfl, rfl, rfl, rfl, rfl, rfl,
        fun _ => rfl⟩

/-- The episodeNo statement either succeeds touching only the episodeNo — and
not even that when the slot is absent or equal to the stored value — or
throws keeping the state. -/
theorem updEpisodeNo_cases (s : UpdateSlots) (d : DirectorMap) (a : ActorMap)
    (m : Movie) :
    (∃ m1, updEpisodeNo s (d, a, m, none) = (d, a, m1, none) ∧
      m1.movieID = m.movieID ∧ m1.title = m.title ∧
      m1.releaseDate = m.releaseDate ∧ m1.director = m.director ∧
      m1.actor = m.actor ∧ m1.category = m.category ∧
      m1.tvSeriesName = m.tvSeriesName ∧ m1.about = m.about ∧
      (truthy s.episodeNo = false ∨ m.episodeNo = some s.episodeNo →
        m1.episodeNo = m.episodeNo)) ∨
    (∃ v, updEpisodeNo s (d, a, m, none) = (d, a, m, some v)) := by
  unfold updEpisodeNo
  dsimp only
  by_cases hc : truthy s.episodeNo ∧ m.episodeNo ≠ some s.episodeNo
  · rw [if_pos hc]
    rcases ht : Movie.setEpisodeNo m s.episodeNo with v | m1
    · exact Or.inr ⟨v, rfl⟩
    · have hm1 := setEpisodeNo_ok _ _ _ ht
      subst hm1
      refine Or.inl ⟨_, rfl, rfl, rfl, rfl, rfl, rfl, rfl, rfl, rfl, ?_⟩
      intro hor
      rcases hor with h' | h'
      · have hT := hc.1
        rw [h'] at hT
        exact absurd hT (by decide)
      · exact absurd h' hc.2
  · rw [if_neg hc]
    exact Or.inl ⟨m, rfl, rfl, rfl, rfl, rfl, rfl, rfl, rfl, rfl, fun _ => rfl⟩

/-- The about statement either succeeds touching only the about field — and
not even that when the slot is absent or equal to the stored value — or
throws keeping the state. -/
theorem updAbout_cases (s : UpdateSlots) (d : DirectorMap) (a : ActorMap)
    (m : Movie) :
    (∃ m1, updAbout s (d, a, m, none) = (d, a, m1, none) ∧
      m1.movieID = m.movieID ∧ m1.title = m.title ∧
      m1.releaseDate = m.releaseDate ∧ m1.director = m.director ∧
      m1.actor = m.actor ∧ m1.category = m.category ∧
      m1.tvSeriesName = m.tvSeriesName ∧ m1.episodeNo = m.episodeNo ∧
      (truthy s.about = false ∨ optStrToJS m.about = s.about →
        m1.about = m.about)) ∨
    (∃ v, updAbout s (d, a, m, none) = (d, a, m, some v)) := by
  unfold updAbout
  dsimp only
  by_cases hc : truthy s.about ∧ optStrToJS m.about ≠ s.about
  · rw [if_pos hc]
    rcases ht : Movie.setAbout m s.about with v | m1
    · exact Or.inr ⟨v, rfl⟩
    · have hm1 := setAbout_ok _ _ _ ht
      subst hm1
      refine Or.inl ⟨_, rfl, rfl, rfl, rfl, rfl, rfl, rfl, rfl, rfl, ?_⟩
      intro hor
      rcases hor with h' | h'
      · have hT := hc.1
        rw [h'] at hT
        exact absurd hT (by decide)
      · exact absurd h' hc.2
  · rw [if_neg hc]
    exact Or.inl ⟨m, rfl, rfl, rfl, rfl, rfl, rfl, rfl, rfl, rfl, fun _ => rfl⟩

/-- A successful pass of Movie.update's try block never touches the movie's
id or tvSeriesName, and leaves every field whose slot is absent — or strictly
equal to the stored value, for the value-compared fields — unchanged. -/
theorem updateFields_ok_fields (directors : DirectorMap) (actors : ActorMap)
    (m : Movie) (s : UpdateSlots) (d1 : DirectorMap) (a1 : ActorMap)
    (m7 : Movie)
    (h : Movie.updateFields directors actors m s = (d1, a1, m7, none)) :
    m7.movieID = m.movieID ∧ m7.tvSeriesName = m.tvSeriesName ∧
    (truthy s.title = false ∨ s.title = JSVal.str m.title →
      m7.title = m.title) ∧
    (s.releaseDate = none → m7.releaseDate = m.releaseDate) ∧
    (RefArg.truthyArg s.director = false → m7.director = m.director) ∧
    (ActorArg.truthyArg s.actor = false → m7.actor = m.actor) ∧
    (truthy s.category = false → m7.category = m.category) ∧
    (truthy s.episodeNo = false ∨ m.episodeNo = some s.episodeNo →
      m7.episodeNo = m.episodeNo) ∧
    (truthy s.about = false ∨ optStrToJS m.about = s.about →
      m7.about = m.about) := by
  unfold Movie.updateFields at h
  rcases updTitle_cases s directors actors m with
    ⟨m1, he1, f1a, f1b, f1c, f1d, f1e, f1f, f1g, f1h, f1t⟩ | ⟨v, he1⟩
  swap
  · rw [he1, updReleaseDate_err, updDirector_err, updActor_err,
      updCategory_err, updEpisodeNo_err, updAbout_err] at h
    cases h
  rw [he1] at h
  rcases updReleaseDate_cases s directors actors m1 with
    ⟨m2, he2, f2a, f2b, f2c, f2d, f2e, f2f, f2g, f2h, f2r⟩ | ⟨v, he2⟩
  swap
  · rw [he2, updDirector_err, updActor_err, updCategory_err, updEpisodeNo_err,
      updAbout_err] at h
    cases h
  rw [he2] at h
  rcases updDirector_cases s directors actors m2 with
    ⟨dX, m3, he3, f3a, f3b, f3c, f3d, f3e, f3f, f3g, f3h, f3d2⟩ |
    ⟨dX, m3, v, he3⟩
  swap
  · rw [he3, updActor_err, updCategory_err, updEpisodeNo_err, updAbout_err] at h
    cases h
  rw [he3] at h
  rcases updActor_cases s dX actors m3 with
    ⟨aX, m4, he4, f4a, f4b, f4c, f4d, f4e, f4f, f4g, f4h, f4a2⟩ |
    ⟨aX, m4, v, he4⟩
  swap
  · rw [he4, updCategory_err, updEpisodeNo_err, updAbout_err] at h
    cases h
  rw [he4] at h
  rcases updCategory_cases s dX aX m4 with
    ⟨m5, he5, f5a, f5b, f5c, f5d, f5e, f5f, f5g, f5h, f5c2⟩ | ⟨v, he5⟩
  swap
  · rw [he5, updEpisodeNo_err, updAbout_err] at h
    cases h
  rw [he5] at h
  rcases updEpisodeNo_cases s dX aX m5 with
    ⟨m6, he6, f6a, f6b, f6c, f6d, f6e, f6f, f6g, f6h, f6e2⟩ | ⟨v, he6⟩
  swap
  · rw [he6, updAbout_err] at h
    cases h
  rw [he6] at h
  rcases updAbout_cases s dX aX m6 with
    ⟨m7x, he7, f7a, f7b, f7c, f7d, f7e, f7f, f7g, f7h, f7a2⟩ | ⟨v, he7⟩
  swap
  · rw [he7] at h
    cases h
  rw [he7] at h
  simp only [Prod.mk.injEq] at h
  obtain ⟨-, -, rfl, -⟩ := h
  refine ⟨f7a.trans (f6a.trans (f5a.trans (f4a.trans (f3a.trans
      (f2a.trans f1a))))),
    f7g.trans (f6g.trans (f5f.trans (f4f.trans (f3f.trans (f2f.trans f1f))))),
    ?_, ?_, ?_, ?_, ?_, ?_, ?_⟩
  · intro hor
    exact (f7b.trans (f6b.trans (f5b.trans (f4b.trans (f3b.trans
      f2b))))).trans (f1t hor)
  · intro h0
    exact (f7c.trans (f6c.trans (f5c.trans (f4c.trans f3c)))).trans
      ((f2r h0).trans f1b)
  · intro h0
    exact (f7d.trans (f6d.trans (f5d.trans f4d))).trans
      (((f3d2 h0).2).trans (f2c.trans f1c))
  · intro h0
    exact (f7e.trans (f6e.trans f5e)).trans
      (((f4a2 h0).2).trans (f3d.trans (f2d.trans f1d)))
  · intro h0
    exact (f7f.trans f6f).trans
      ((f5c2 h0).trans (f4e.trans (f3e.trans (f2e.trans f1e))))
  · intro hor
    have hchain : m5.episodeNo = m.episodeNo :=
      f5g.trans (f4g.trans (f3g.trans (f2g.trans f1g)))
    have hor' : truthy s.episodeNo = false ∨ m5.episodeNo = some s.episodeNo :=
      hor.imp id (fun h' => hchain.trans h')
    exact f7h.trans ((f6e2 hor').trans hchain)
  · intro hor
    have hchain : m6.about = m.about :=
      f6h.trans (f5h.trans (f4h.trans (f3h.trans (f2h.trans f1h))))
    have hor' : truthy s.about = false ∨ optStrToJS m6.about = s.about :=
      hor.imp id (fun h' => (congrArg optStrToJS hchain).trans h')
    exact (f7a2 hor').trans hchain

/-! Lemmas about retrieveAll's per-record loop. -/

theorem mem_mput_keys {K V : Type} [DecidableEq K] (l : List (K × V)) (k k' : K)
    (v : V) : k' ∈ (mput l k v).map Prod.fst ↔ k' ∈ l.map Prod.fst ∨ k' = k := by
  induction l with
  | nil => simp [mput]
  | cons hd t ih =>
    obtain ⟨k0, v0⟩ := hd
    by_cases hk : k0 = k
    · subst hk
      simp only [mput, if_true, List.map_cons, List.mem_cons]
      constructor
      · rintro (rfl | h)
        · exact Or.inr rfl
        · exact Or.inl (Or.inr h)
      · rintro (h | h)
        · rcases h with rfl | h
          · exact Or.inl rfl
          · exact Or.inr h
        · exact Or.inl h
    · simp only [mput, hk, if_false, List.map_cons, List.mem_cons, ih]
      tauto

theorem mget_isSome_mput {K V : Type} [DecidableEq K] (l : List (K × V))
    (k k' : K) (v : V) (h : (mget l k').isSome) :
    (mget (mput l k v) k').isSome := by
  by_cases hk : k = k'
  · subst hk
    rw [mget_mput_self]
    rfl
  · rw [mget_mput_ne _ _ _ _ hk]
    exact h

/-- Records whose keys differ from `k` never change `k`'s entry in the movie
loop. -/
theorem Movie.retrieveAllAux_not_mem (storage : List (String × MovieRecord)) :
    ∀ (d : DirectorMap) (a : ActorMap) (inst : List (String × Option Movie))
      (k : String), k ∉ storage.map Prod.fst →
      mget (Movie.retrieveAllAux d a inst storage).2.2 k = mget inst k := by
  induction storage with
  | nil => intro d a inst k _; rfl
  | cons hd rest ih =>
    obtain ⟨k0, rec0⟩ := hd
    intro d a inst k hk
    simp only [List.map_cons, List.mem_cons] at hk
    push_neg at hk
    unfold Movie.retrieveAllAux
    rcases hco : Movie.convertRec2Obj (inst.map Prod.fst) d a rec0 with ⟨d1, a1, mo⟩
    rw [ih d1 a1 _ k hk.2, mget_mput_ne _ _ _ _ (Ne.symm hk.1)]

/-- Every record processed by the movie loop ends with an entry under its key
(the loop never aborts), and existing entries keep existing. -/
theorem Movie.retrieveAllAux_isSome (storage : List (String × MovieRecord)) :
    ∀ (d : DirectorMap) (a : ActorMap) (inst : List (String × Option Movie))
      (k : String),
      ((mget inst k).isSome ∨ k ∈ storage.map Prod.fst) →
      (mget (Movie.retrieveAllAux d a inst storage).2.2 k).isSome := by
  induction storage with
  | nil =>
    intro d a inst k h
    rcases h with h | h
    · exact h
    · simp at h
  | cons hd rest ih =>
    obtain ⟨k0, rec0⟩ := hd
    intro d a inst k h
    unfold Movie.retrieveAllAux
    rcases hco : Movie.convertRec2Obj (inst.map Prod.fst) d a rec0 with ⟨d1, a1, mo⟩
    apply ih
    rcases h with h | h
    · exact Or.inl (mget_isSome_mput _ _ _ _ h)
    · simp only [List.map_cons, List.mem_cons] at h
      rcases h with rfl | h
      · left
        rw [mget_mput_self]
        rfl
      · exact Or.inr h

/-- The entry a record of the movie loop ends up with is the conversion of
that record at some fold point whose key set does not contain the record's
key. -/
theorem Movie.retrieveAllAux_entry (storage : List (String × MovieRecord)) :
    ∀ (d : DirectorMap) (a : ActorMap) (inst : List (String × Option Movie))
      (k : String) (rec : MovieRecord),
      (storage.map Prod.fst).Nodup → (k, rec) ∈ storage →
      k ∉ inst.map Prod.fst →
      ∃ ks d1 a1, k ∉ ks ∧
        mget (Movie.retrieveAllAux d a inst storage).2.2 k =
          some (Movie.convertRec2Obj ks d1 a1 rec).2.2 := by
  induction storage with
  | nil => intro d a inst k rec _ h; simp at h
  | cons hd rest ih =>
    obtain ⟨k0, rec0⟩ := hd
    intro d a inst k rec hnd hmem hkinst
    simp only [List.map_cons, List.nodup_cons] at hnd
    unfold Movie.retrieveAllAux
    rw [List.mem_cons] at hmem
    rcases hmem with heq | hmem
    · rw [Prod.mk.injEq] at heq
      obtain ⟨rfl, rfl⟩ := heq
      rcases hco : Movie.convertRec2Obj (inst.map Prod.fst) d a rec with ⟨d1, a1, mo⟩
      refine ⟨inst.map Prod.fst, d, a, hkinst, ?_⟩
      rw [Movie.retrieveAllAux_not_mem rest d1 a1 _ k hnd.1,
        mget_mput_self, hco]
    · rcases hco : Movie.convertRec2Obj (inst.map Prod.fst) d a rec0 with ⟨d1, a1, mo⟩
      have hk0 : k ≠ k0 := by
        intro hkk
        subst hkk
        exact hnd.1 (List.mem_map_of_mem Prod.fst hmem)
      apply ih d1 a1 _ k rec hnd.2 hmem
      rw [mem_mput_keys]
      rintro (h | h)
      · exact hkinst h
      · exact hk0 h

/-- Records whose keys differ from `k` never change `k`'s entry in the person
loop. -/
theorem Person.retrieveAllAux_key_untouched (storage : List (Int × PersonRecord)) :
    ∀ (inst : List (Int × Person)) (k : Int), k ∉ storage.map Prod.fst →
      mget (Person.retrieveAllAux inst storage) k = mget inst k := by
  induction storage with
  | nil => intro inst k _; rfl
  | cons hd rest ih =>
    obtain ⟨k0, rec0⟩ := hd
    intro inst k hk
    simp only [List.map_cons, List.mem_cons] at hk
    push_neg at hk
    unfold Person.retrieveAllAux
    rcases hmk : Person.mkPerson (inst.map Prod.fst) rec0.toSlots with v | p
    · exact ih inst k hk.2
    · rw [ih _ k hk.2, mget_mput_ne _ _ _ _ (Ne.symm hk.1)]

/-- A person record that fails construction at every fold point leaves no
entry in the person loop. -/
theorem Person.retrieveAllAux_skip (storage : List (Int × PersonRecord)) :
    ∀ (inst : List (Int × Person)) (k : Int) (rec : PersonRecord),
      (storage.map Prod.fst).Nodup → (k, rec) ∈ storage →
      mget inst k = none →
      (∀ ks, ∃ v, Person.mkPerson ks rec.toSlots = .error v) →
      mget (Person.retrieveAllAux inst storage) k = none := by
  induction storage with
  | nil => intro inst k rec _ h; simp at h
  | cons hd rest ih =>
    obtain ⟨k0, rec0⟩ := hd
    intro inst k rec hnd hmem hinst hbad
    simp only [List.map_cons, List.nodup_cons] at hnd
    unfold Person.retrieveAllAux
    rw [List.mem_cons] at hmem
    rcases hmem with heq | hmem
    · rw [Prod.mk.injEq] at heq
      obtain ⟨rfl, rfl⟩ := heq
      obtain ⟨v, hv⟩ := hbad (inst.map Prod.fst)
      rw [hv, Person.retrieveAllAux_key_untouched rest inst k hnd.1]
      exact hinst
    · have hk0 : k ≠ k0 := by
        intro hkk
        subst hkk
        exact hnd.1 (List.mem_map_of_mem Prod.fst hmem)
      rcases hmk : Person.mkPerson (inst.map Prod.fst) rec0.toSlots with v | p
      · exact ih inst k rec hnd.2 hmem hinst hbad
      · refine ih _ k rec hnd.2 hmem ?_ hbad
        rw [mget_mput_ne _ _ _ _ (Ne.symm hk0)]
        exact hinst

/-- A movie constructor run on a slot record with an invalid title always
throws (whatever the collections look like): either the id is already taken,
or the title check throws. -/
theorem mkMovie_error_of_bad_title (ks : List String) (d : DirectorMap)
    (a : ActorMap) (s : MovieSlots)
    (ht : Movie.checkTitle s.title ≠ .noViolation) :
    ∃ v, (Movie.mkMovie ks d a s).2.2 = .error v := by
  unfold Movie.mkMovie
  rcases hsm : Movie.setMovieID ks movie0 s.movieID with v | m1
  · exact ⟨v, rfl⟩
  · have hst : Movie.setTitle m1 s.title = .error (Movie.checkTitle s.title) := by
      unfold Movie.setTitle
      rcases hc : Movie.checkTitle s.title with _ | msg | msg | msg | msg | msg | msg | msg | msg | msg | msg
      · exact absurd hc ht
      all_goals rfl
    dsimp only
    rw [hst]
    exact ⟨_, rfl⟩

/-- A person constructor run on a slot record with an invalid name always
throws: either the id check throws, or the name check does. -/
theorem mkPerson_error_of_bad_name (ks : List Int) (s : PersonSlots)
    (hn : Person.checkName s.name ≠ .noViolation) :
    ∃ v, Person.mkPerson ks s = .error v := by
  unfold Person.mkPerson
  rcases hid : Person.checkPersonIdAsId s.personId ks with _ | msg | msg | msg | msg | msg | msg | msg | msg | msg | msg
  all_goals try exact ⟨_, rfl⟩
  rcases hc : Person.checkName s.name with _ | msg | msg | msg | msg | msg | msg | msg | msg | msg | msg
  · exact absurd hc hn
  all_goals exact ⟨_, rfl⟩

/-! Reconstruction lemmas for the save/retrieve round trip. -/

theorem truthy_num_of_pos (n : Int) (h : 1 ≤ n) : truthy (.num n) = true := by
  simp only [truthy, bne_iff_ne, ne_eq, decide_eq_true_eq]
  omega

theorem truthy_str_of_ne (s : String) (h : s ≠ "") : truthy (.str s) = true := by
  simp [truthy, h]

theorem checkPersonIdAsId_ok (pid : Int) (ks : List Int) (h1 : 1 ≤ pid)
    (h2 : pid ∉ ks) : Person.checkPersonIdAsId (.num pid) ks = .noViolation := by
  have hcp : Person.checkPersonId (.num pid) = .noViolation := by
    unfold Person.checkPersonId
    rw [truthy_num_of_pos pid h1]
    dsimp only [parseIntJS]
    rw [if_neg (by decide)]
    rw [if_neg (by omega)]
  unfold Person.checkPersonIdAsId
  dsimp only [parseIntJS]
  rw [hcp]
  rw [if_neg h2]

theorem checkName_ok (nm : String) (h3 : nm ≠ "") (h4 : jsBlank nm = false)
    (h5 : nm.length ≤ 120) : Person.checkName (.str nm) = .noViolation := by
  unfold Person.checkName
  rw [truthy_str_of_ne nm h3, if_neg (by decide)]
  dsimp only
  rw [h4, if_neg (by decide), if_neg (by omega)]

/-- The Person constructor rebuilds exactly the serialized person. -/
theorem mkPerson_fromJSON (ks : List Int) (pid : Int) (nm : String)
    (ag : Option Int) (h1 : 1 ≤ pid) (h2 : pid ∉ ks) (h3 : nm ≠ "")
    (h4 : jsBlank nm = false) (h5 : nm.length ≤ 120)
    (h6 : ∀ a2 ∈ ag, 1 ≤ a2) :
    Person.mkPerson ks
      { personId := .num pid, name := .str nm, agent := optIntToJS ag } =
      .ok { personId := pid, name := nm, agent := ag } := by
  unfold Person.mkPerson
  dsimp only
  rw [checkPersonIdAsId_ok pid ks h1 h2, checkName_ok nm h3 h4 h5]
  dsimp only
  cases ag with
  | none =>
    rw [show truthy (optIntToJS none) = false from rfl, if_neg (by decide)]
    rfl
  | some a2 =>
    have ha2 := h6 a2 rfl
    have htr : truthy (optIntToJS (some a2)) = true := truthy_num_of_pos a2 ha2
    rw [htr, if_pos rfl]
    have hag : Person.checkAgent (optIntToJS (some a2)) = .noViolation := by
      unfold Person.checkAgent
      rw [htr, if_neg (by decide)]
      dsimp only [optIntToJS, parseIntJS]
      rw [if_neg (by omega)]
    rw [hag]
    rfl

/-- The person loop rebuilds exactly the serialized person collection. -/
theorem Person.retrieveAllAux_roundtrip_person (ps : List (Int × Person)) :
    ∀ acc : List (Int × Person),
      (((acc ++ ps).map Prod.fst)).Nodup →
      (∀ q ∈ ps, personOK q.1 q.2 = true) →
      Person.retrieveAllAux acc (Person.saveAll ps) = acc ++ ps := by
  induction ps with
  | nil =>
    intro acc _ _
    simp [Person.saveAll, Person.retrieveAllAux]
  | cons hd t ih =>
    obtain ⟨k, p⟩ := hd
    intro acc hnd hok
    have hkp := hok (k, p) (List.mem_cons_self _ _)
    simp only [personOK, Bool.and_eq_true, decide_eq_true_eq, bne_iff_ne,
      ne_eq, Bool.not_eq_true'] at hkp
    obtain ⟨⟨⟨⟨⟨hpk, hpos⟩, hn3⟩, hn4⟩, hn5⟩, hagp⟩ := hkp
    have hknotacc : k ∉ acc.map Prod.fst := by
      rw [List.map_append] at hnd
      have := (List.nodup_append.mp hnd).2.2
      intro hmem
      exact this hmem (by simp)
    have hag : ∀ a2 ∈ p.agent, 1 ≤ a2 := by
      intro a2 ha2
      cases hpa : p.agent with
      | none => rw [hpa] at ha2; cases ha2
      | some b =>
        rw [hpa] at ha2
        rw [hpa] at hagp
        simp only [decide_eq_true_eq] at hagp
        cases ha2
        exact hagp
    unfold Person.saveAll
    dsimp only [List.map_cons]
    unfold Person.retrieveAllAux
    have hslots : PersonRecord.toSlots (Person.toJSON p) =
        { personId := .num p.personId, name := .str p.name
          agent := optIntToJS p.agent } := rfl
    rw [hslots, mkPerson_fromJSON (acc.map Prod.fst) p.personId p.name p.agent
      hpos (by rw [hpk]; exact hknotacc) hn3 hn4 hn5 hag]
    have hput : mput acc k p = acc ++ [(k, p)] :=
      mput_of_not_mem acc k p hknotacc
    have hback : (Person.mk p.personId p.name p.agent) = p := rfl
    rw [hback]
    have hrw : Person.retrieveAllAux (mput acc k p) (Person.saveAll t) =
        (acc ++ [(k, p)]) ++ t := by
      rw [hput]
      apply ih
      · rw [List.append_assoc, List.singleton_append]
        exact hnd
      · intro q hq
        exact hok q (List.mem_cons_of_mem _ hq)
    rw [show Person.saveAll t = t.map (fun q => (q.1, Person.toJSON q.2)) from rfl]
      at hrw
    dsimp only
    rw [hrw, List.append_assoc, List.singleton_append]

/-- The Director constructor rebuilds exactly the serialized director's
person part. -/
theorem mkDirector_fromJSON (ks : List Int) (pid : Int) (nm : String)
    (ag : Option Int) (h1 : 1 ≤ pid) (h2 : pid ∉ ks) (h3 : nm ≠ "")
    (h4 : jsBlank nm = false) (h5 : nm.length ≤ 120)
    (h6 : ∀ a2 ∈ ag, 1 ≤ a2) :
    Director.mkDirector ks
      { personId := .num pid, name := .str nm, agent := optIntToJS ag } =
      .ok { personId := pid, name := nm, agent := ag, directedMovies := [] } := by
  unfold Director.mkDirector
  rw [mkPerson_fromJSON ks pid nm ag h1 h2 h3 h4 h5 h6]

/-- The Actor constructor rebuilds exactly the serialized actor's person
part. -/
theorem mkActor_fromJSON (ks : List Int) (pid : Int) (nm : String)
    (ag : Option Int) (h1 : 1 ≤ pid) (h2 : pid ∉ ks) (h3 : nm ≠ "")
    (h4 : jsBlank nm = false) (h5 : nm.length ≤ 120)
    (h6 : ∀ a2 ∈ ag, 1 ≤ a2) :
    Actor.mkActor ks
      { personId := .num pid, name := .str nm, agent := optIntToJS ag } =
      .ok { personId := pid, name := nm, agent := ag, actedInMovies := [] } := by
  unfold Actor.mkActor
  rw [mkPerson_fromJSON ks pid nm ag h1 h2 h3 h4 h5 h6]

/-- The director loop rebuilds exactly the serialized director collection
(the directedMovies map is restored verbatim from the record). -/
theorem Director.retrieveAllAux_roundtrip_director (ds : DirectorMap) :
    ∀ acc : DirectorMap,
      ((acc ++ ds).map Prod.fst).Nodup →
      (∀ q ∈ ds, directorOK q.1 q.2 = true) →
      Director.retrieveAllAux acc (Director.saveAll ds) = acc ++ ds := by
  induction ds with
  | nil =>
    intro acc _ _
    simp [Director.saveAll, Director.retrieveAllAux]
  | cons hd t ih =>
    obtain ⟨k, d⟩ := hd
    intro acc hnd hok
    have hkp := hok (k, d) (List.mem_cons_self _ _)
    simp only [directorOK, Bool.and_eq_true, decide_eq_true_eq, bne_iff_ne,
      ne_eq, Bool.not_eq_true'] at hkp
    obtain ⟨⟨⟨⟨⟨hpk, hpos⟩, hn3⟩, hn4⟩, hn5⟩, hagp⟩ := hkp
    have hknotacc : k ∉ acc.map Prod.fst := by
      rw [List.map_append] at hnd
      have := (List.nodup_append.mp hnd).2.2
      intro hmem
      exact this hmem (by simp)
    have hag : ∀ a2 ∈ d.agent, 1 ≤ a2 := by
      intro a2 ha2
      cases hpa : d.agent with
      | none => rw [hpa] at ha2; cases ha2
      | some b =>
        rw [hpa] at ha2
        rw [hpa] at hagp
        simp only [decide_eq_true_eq] at hagp
        cases ha2
        exact hagp
    unfold Director.saveAll
    dsimp only [List.map_cons]
    unfold Director.retrieveAllAux
    rw [show (Director.toJSON d).personId = d.personId from rfl,
      show (Director.toJSON d).name = d.name from rfl,
      show (Director.toJSON d).agent = d.agent from rfl,
      mkDirector_fromJSON (acc.map Prod.fst) d.personId d.name d.agent
        hpos (by rw [hpk]; exact hknotacc) hn3 hn4 hn5 hag]
    dsimp only
    have hback : Director.mk d.personId d.name d.agent
        (Director.toJSON d).directedMovies = d := rfl
    rw [hback, mput_of_not_mem acc k d hknotacc]
    have hrw := ih (acc ++ [(k, d)])
      (by rw [List.append_assoc, List.singleton_append]; exact hnd)
      (fun q hq => hok q (List.mem_cons_of_mem _ hq))
    rw [show Director.saveAll t = t.map (fun q => (q.1, Director.toJSON q.2))
      from rfl] at hrw
    rw [hrw, List.append_assoc, List.singleton_append]

/-- The actor loop rebuilds exactly the serialized actor collection. -/
theorem Actor.retrieveAllAux_roundtrip_actor (as0 : ActorMap) :
    ∀ acc : ActorMap,
      ((acc ++ as0).map Prod.fst).Nodup →
      (∀ q ∈ as0, actorOK q.1 q.2 = true) →
      Actor.retrieveAllAux acc (Actor.saveAll as0) = acc ++ as0 := by
  induction as0 with
  | nil =>
    intro acc _ _
    simp [Actor.saveAll, Actor.retrieveAllAux]
  | cons hd t ih =>
    obtain ⟨k, a⟩ := hd
    intro acc hnd hok
    have hkp := hok (k, a) (List.mem_cons_self _ _)
    simp only [actorOK, Bool.and_eq_true, decide_eq_true_eq, bne_iff_ne,
      ne_eq, Bool.not_eq_true'] at hkp
    obtain ⟨⟨⟨⟨⟨hpk, hpos⟩, hn3⟩, hn4⟩, hn5⟩, hagp⟩ := hkp
    have hknotacc : k ∉ acc.map Prod.fst := by
      rw [List.map_append] at hnd
      have := (List.nodup_append.mp hnd).2.2
      intro hmem
      exact this hmem (by simp)
    have hag : ∀ a2 ∈ a.agent, 1 ≤ a2 := by
      intro a2 ha2
      cases hpa : a.agent with
      | none => rw [hpa] at ha2; cases ha2
      | some b =>
        rw [hpa] at ha2
        rw [hpa] at hagp
        simp only [decide_eq_true_eq] at hagp
        cases ha2
        exact hagp
    unfold Actor.saveAll
    dsimp only [List.map_cons]
    unfold Actor.retrieveAllAux
    rw [show (Actor.toJSON a).personId = a.personId from rfl,
      show (Actor.toJSON a).name = a.name from rfl,
      show (Actor.toJSON a).agent = a.agent from rfl,
      mkActor_fromJSON (acc.map Prod.fst) a.personId a.name a.agent
        hpos (by rw [hpk]; exact hknotacc) hn3 hn4 hn5 hag]
    dsimp only
    have hback : Actor.mk a.personId a.name a.agent
        (Actor.toJSON a).actedInMovies = a := rfl
    rw [hback, mput_of_not_mem acc k a hknotacc]
    have hrw := ih (acc ++ [(k, a)])
      (by rw [List.append_assoc, List.singleton_append]; exact hnd)
      (fun q hq => hok q (List.mem_cons_of_mem _ hq))
    rw [show Actor.saveAll t = t.map (fun q => (q.1, Actor.toJSON q.2))
      from rfl] at hrw
    rw [hrw, List.append_assoc, List.singleton_append]

theorem checkTitle_ok (t : String) (h1 : t ≠ "") (h2 : jsBlank t = false)
    (h3 : t.length ≤ 120) : Movie.checkTitle (.str t) = .noViolation := by
  unfold Movie.checkTitle
  rw [truthy_str_of_ne t h1, if_neg (by decide)]
  dsimp only
  rw [h2, if_neg (by decide), if_neg (by omega)]

theorem checkMovieID_ok (s : String) (h1 : s ≠ "") (h2 : jsBlank s = false) :
    Movie.checkMovieID (.str s) = .noViolation := by
  unfold Movie.checkMovieID
  rw [truthy_str_of_ne s h1, if_neg (by decide)]
  dsimp only
  rw [h2, if_neg (by decide)]

theorem checkMovieIDAsId_ok (s : String) (ks : List String) (h1 : s ≠ "")
    (h2 : jsBlank s = false) (h3 : s ∉ ks) :
    Movie.checkMovieIDAsId (.str s) ks = .noViolation := by
  unfold Movie.checkMovieIDAsId
  rw [checkMovieID_ok s h1 h2]
  dsimp only
  rw [truthy_str_of_ne s h1, if_neg (by decide), if_neg h3]

/-- addPerson on a resolvable, back-referenced, fresh id: the actor map is
unchanged (the movie id is already in the back-reference set) and the id is
appended to the movie's map. -/
theorem addPerson_resolved (actors : ActorMap) (mv : Movie) (i : Int)
    (ac : Actor) (hpos : 1 ≤ i) (hmg : mget actors i = some ac)
    (hmem : mv.movieID ∈ ac.actedInMovies) (hfresh : i ∉ mv.actor) :
    Movie.addPerson actors mv (.obj i) =
      (actors, { mv with actor := mv.actor ++ [i] }, none) := by
  unfold Movie.addPerson
  dsimp only
  rw [if_neg (by omega), hmg]
  have hmm : mmod actors i
      (fun ac0 => { ac0 with actedInMovies := sadd ac0.actedInMovies mv.movieID }) =
      actors := by
    apply mmod_eq_self
    intro v hv
    rw [hmg] at hv
    cases hv
    rw [sadd_of_mem _ _ hmem]
  have hsa : saddI mv.actor i = mv.actor ++ [i] := by
    unfold saddI
    rw [if_neg hfresh]
  rw [hmm, hsa]

/-- The addPerson loop over resolvable, back-referenced, pairwise-fresh object
references leaves the actor collection unchanged and appends the ids. -/
theorem setActorList_resolved (actors : ActorMap) (l : List Int) :
    ∀ mv : Movie,
      (∀ i ∈ l, 1 ≤ i ∧ ∃ ac, mget actors i = some ac ∧
        mv.movieID ∈ ac.actedInMovies) →
      l.Nodup → (∀ i ∈ l, i ∉ mv.actor) →
      Movie.setActorList actors mv (l.map RefElem.obj) =
        (actors, { mv with actor := mv.actor ++ l }, none) := by
  induction l with
  | nil =>
    intro mv _ _ _
    rw [List.append_nil]
    rfl
  | cons i t ih =>
    intro mv hres hnd hfresh
    obtain ⟨hpos, ac, hmg, hmem⟩ := hres i (List.mem_cons_self _ _)
    have hstep := addPerson_resolved actors mv i ac hpos hmg hmem
      (hfresh i (List.mem_cons_self _ _))
    dsimp only [List.map_cons]
    unfold Movie.setActorList
    rw [hstep]
    have hrec := ih { mv with actor := mv.actor ++ [i] }
      (by
        intro j hj
        obtain ⟨hj1, acj, hj2, hj3⟩ := hres j (List.mem_cons_of_mem _ hj)
        exact ⟨hj1, acj, hj2, hj3⟩)
      (List.Nodup.of_cons hnd)
      (by
        intro j hj
        simp only [List.mem_append, List.mem_singleton]
        rintro (hja | rfl)
        · exact hfresh j (List.mem_cons_of_mem _ hj) hja
        · exact (List.nodup_cons.mp hnd).1 hj)
    dsimp only
    rw [hrec]
    simp only [List.append_assoc, List.singleton_append]

/-- The serialized actor map of a fully-resolved movie carries exactly the
movie's actor ids. -/
theorem actor_records_personIds (actors : ActorMap) (l : List Int)
    (h : ∀ i ∈ l, ∃ ac, mget actors i = some ac ∧ ac.personId = i) :
    (l.filterMap (fun i => (mget actors i).map Actor.toJSON)).map
      ActorRecord.personId = l := by
  induction l with
  | nil => rfl
  | cons i t ih =>
    obtain ⟨ac, hmg, hpid⟩ := h i (List.mem_cons_self _ _)
    simp only [List.filterMap_cons, hmg, Option.map_some', List.map_cons]
    rw [ih (fun j hj => h j (List.mem_cons_of_mem _ hj))]
    rw [show (Actor.toJSON ac).personId = ac.personId from rfl, hpid]

/-- Unsetting the director of a movie without one is the identity. -/
theorem setDirector_step_none (directors : DirectorMap) (m : Movie)
    (hm : m.director = none) :
    Movie.setDirector directors m (.val .undef) = (directors, m, none) := by
  unfold Movie.setDirector
  rw [if_pos (show RefArg.truthyArg (.val .undef) = false from rfl)]
  rw [hm]

/-- Assigning a resolvable, back-referenced director to a movie without one
installs the reference and leaves the director collection unchanged. -/
theorem setDirector_step_some (directors : DirectorMap) (m : Movie) (i : Int)
    (dd : Director) (hm : m.director = none) (hmg : mget directors i = some dd)
    (hmem : m.movieID ∈ dd.directedMovies) :
    Movie.setDirector directors m (.obj i) =
      (directors, { m with director := some i }, none) := by
  unfold Movie.setDirector
  rw [if_neg (show ¬ RefArg.truthyArg (.obj i) = false from fun h => nomatch h)]
  dsimp only
  rw [hm]
  dsimp only
  rw [show asKey (JSVal.num i) = some i from rfl]
  dsimp only
  rw [hmg]
  have hmm : mmod directors i
      (fun d => { d with directedMovies := sadd d.directedMovies m.movieID }) =
      directors := by
    apply mmod_eq_self
    intro v hv
    rw [hmg] at hv
    cases hv
    rw [sadd_of_mem _ _ hmem]
  rw [hmm]

/-- The guarded category assignment of the constructor restores a stored
category of 1 or 2 and skips an absent one. -/
theorem setCategory_step (m : Movie) (cat : Option Int) (hm : m.category = none)
    (hc : ∀ c, cat = some c → c = 1 ∨ c = 2) :
    (if truthy (optIntToJS cat) then Movie.setCategory m (optIntToJS cat)
      else .ok m) = .ok { m with category := cat } := by
  cases cat with
  | none =>
    rw [if_neg (by decide)]
    rw [← hm]
  | some c =>
    rcases hc c rfl with rfl | rfl
    · rw [if_pos (by decide)]
      unfold Movie.setCategory
      rw [hm]
      rfl
    · rw [if_pos (by decide)]
      unfold Movie.setCategory
      rw [hm]
      rfl

/-- The guarded tvSeriesName assignment restores a stored non-blank name and
skips an absent one. -/
theorem setTvSeriesName_step (m : Movie) (tvn : Option String)
    (hm : m.tvSeriesName = none)
    (h : ∀ s, tvn = some s → s ≠ "" ∧ jsBlank s = false) :
    (if truthy (optStrToJS tvn) then Movie.setTvSeriesName m (optStrToJS tvn)
      else .ok m) = .ok { m with tvSeriesName := tvn } := by
  cases tvn with
  | none =>
    rw [if_neg (by decide)]
    rw [← hm]
  | some s =>
    obtain ⟨h1, h2⟩ := h s rfl
    rw [show optStrToJS (some s) = JSVal.str s from rfl,
      if_pos (truthy_str_of_ne s h1)]
    have hck : Movie.checkTvSeriesName (.str s) = .noViolation := by
      unfold Movie.checkTvSeriesName
      rw [truthy_str_of_ne s h1, if_neg (by decide),
        if_pos (show strNonBlank (JSVal.str s) = true by
          simp [strNonBlank, h2])]
    unfold Movie.setTvSeriesName
    rw [hck]
    rfl

/-- The guarded episodeNo assignment of the constructor restores a stored
episode number of a TV-series episode and skips an absent one. -/
theorem setEpisodeNo_step (m : Movie) (epn : Option JSVal)
    (hm : m.episodeNo = none)
    (h : ∀ v, epn = some v → m.category = some 1 ∧ truthy v = true ∧
      isIntegerOrIntegerString v = true ∧ 1 ≤ (parseIntJS v).getD 0) :
    (if truthy (epn.getD .undef) then Movie.setEpisodeNo m (epn.getD .undef)
      else .ok m) = .ok { m with episodeNo := epn } := by
  cases epn with
  | none =>
    rw [if_neg (by decide)]
    rw [← hm]
  | some v =>
    obtain ⟨hc1, hv, hint, hge⟩ := h v rfl
    rw [if_pos (show truthy ((some v).getD .undef) = true from hv)]
    have hck : Movie.checkEpisodeNo v (.num 1) = .noViolation := by
      unfold Movie.checkEpisodeNo
      dsimp only
      rw [if_neg (by rw [hv]; simp), if_neg (fun hh => hh.1 rfl),
        if_neg (fun hh => hh.2 ⟨hint, hge⟩)]
    unfold Movie.setEpisodeNo
    rw [hc1]
    rw [show (some v).getD JSVal.undef = v from rfl,
      show optIntToJS (some 1) = JSVal.num 1 from rfl, hck]

/-- The guarded about assignment of the constructor restores a stored
biography subject and skips an absent one. -/
theorem setAbout_step (m : Movie) (abt : Option String) (hm : m.about = none)
    (h : ∀ s, abt = some s → m.category = some 2 ∧ s ≠ "" ∧
      jsBlank s = false) :
    (if truthy (optStrToJS abt) then Movie.setAbout m (optStrToJS abt)
      else .ok m) = .ok { m with about := abt } := by
  cases abt with
  | none =>
    rw [if_neg (by decide)]
    rw [← hm]
  | some s =>
    obtain ⟨hc1, h1, h2⟩ := h s rfl
    rw [show optStrToJS (some s) = JSVal.str s from rfl,
      if_pos (truthy_str_of_ne s h1)]
    have hck : Movie.checkAbout (.str s) (.num 2) = .noViolation := by
      unfold Movie.checkAbout
      dsimp only
      rw [if_neg (by rw [truthy_str_of_ne s h1]; simp),
        if_neg (fun hh => hh.1 rfl),
        if_neg (by
          rw [show strNonBlank (JSVal.str s) = !jsBlank s from rfl, h2]
          simp)]
    unfold Movie.setAbout
    rw [hc1]
    rw [show optIntToJS (some 2) = JSVal.num 2 from rfl, hck]
    rfl

/-- The Movie constructor, fed a slot record carrying a valid movie's
serialized field values, rebuilds exactly that movie and leaves the director
and actor collections unchanged (every back-reference it would add is already
present). -/
theorem mkMovie_restore (movieKeys : List String) (directors : DirectorMap)
    (actors : ActorMap) (S : MovieSlots) (mid ti : String) (rd : JSDate)
    (dir : Option Int) (act : List Int) (cat : Option Int)
    (tvn : Option String) (epn : Option JSVal) (abt : Option String)
    (hS1 : S.movieID = .str mid) (hS2 : S.title = .str ti)
    (hS3 : S.releaseDate = some rd)
    (hS4 : S.director = match dir with
           | some di => RefArg.obj di
           | none => RefArg.val .undef)
    (hS5 : S.actor = .objs act) (hS6 : S.category = optIntToJS cat)
    (hS7 : S.tvSeriesName = optStrToJS tvn)
    (hS8 : S.episodeNo = epn.getD .undef) (hS9 : S.about = optStrToJS abt)
    (hk : mid ∉ movieKeys) (hmidne : mid ≠ "") (hmidbl : jsBlank mid = false)
    (htine : ti ≠ "") (htibl : jsBlank ti = false) (htilen : ti.length ≤ 120)
    (hdate : JSDate.lt rd (mkDate 1895 12 28) = false)
    (hdirres : ∀ di, dir = some di → ∃ dd, mget directors di = some dd ∧
      mid ∈ dd.directedMovies)
    (hacts : ∀ i ∈ act, 1 ≤ i ∧ ∃ ac, mget actors i = some ac ∧
      mid ∈ ac.actedInMovies)
    (hnodup : act.Nodup)
    (hcatv : ∀ c, cat = some c → c = 1 ∨ c = 2)
    (htvnv : ∀ s, tvn = some s → s ≠ "" ∧ jsBlank s = false)
    (hepnv : ∀ v, epn = some v → cat = some 1 ∧ truthy v = true ∧
      isIntegerOrIntegerString v = true ∧ 1 ≤ (parseIntJS v).getD 0)
    (habtv : ∀ s, abt = some s → cat = some 2 ∧ s ≠ "" ∧
      jsBlank s = false) :
    Movie.mkMovie movieKeys directors actors S =
      (directors, actors,
        .ok (Movie.mk mid ti rd dir act cat tvn epn abt)) := by
  have h1 : Movie.setMovieID movieKeys movie0 (.str mid) =
      .ok (Movie.mk mid "" (mkDate 1970 0 1) none [] none none none none) := by
    unfold Movie.setMovieID
    rw [checkMovieIDAsId_ok mid movieKeys hmidne hmidbl hk]
    rfl
  have h2 : Movie.setTitle
      (Movie.mk mid "" (mkDate 1970 0 1) none [] none none none none)
      (.str ti) =
      .ok (Movie.mk mid ti (mkDate 1970 0 1) none [] none none none none) := by
    unfold Movie.setTitle
    rw [checkTitle_ok ti htine htibl htilen]
    rfl
  have h3 : Movie.setReleaseDate
      (Movie.mk mid ti (mkDate 1970 0 1) none [] none none none none)
      (some rd) =
      .ok (Movie.mk mid ti rd none [] none none none none) := by
    have hcrd : Movie.checkReleaseDate (some rd) = .noViolation := by
      unfold Movie.checkReleaseDate
      dsimp only
      rw [hdate]
      rfl
    unfold Movie.setReleaseDate
    rw [hcrd]
    rfl
  have h4 : Movie.setDirector directors
      (Movie.mk mid ti rd none [] none none none none) S.director =
      (directors, Movie.mk mid ti rd dir [] none none none none, none) := by
    rcases dir with _ | di
    · rw [(hS4 : S.director = RefArg.val JSVal.undef)]
      exact setDirector_step_none directors
        (Movie.mk mid ti rd none [] none none none none) rfl
    · obtain ⟨dd, hmgd, hmem⟩ := hdirres di rfl
      rw [(hS4 : S.director = RefArg.obj di)]
      exact setDirector_step_some directors
        (Movie.mk mid ti rd none [] none none none none) di dd rfl hmgd hmem
  have h5 : Movie.setActor actors
      (Movie.mk mid ti rd dir [] none none none none) S.actor =
      (actors, Movie.mk mid ti rd dir act none none none none, none) := by
    rw [hS5]
    unfold Movie.setActor
    dsimp only
    rw [setActorList_resolved actors act
      (Movie.mk mid ti rd dir [] none none none none) hacts hnodup
      (fun i _ h0 => List.not_mem_nil i h0)]
    dsimp only [List.nil_append]
  have h6 := setCategory_step
    (Movie.mk mid ti rd dir act none none none none) cat rfl hcatv
  have h7 := setTvSeriesName_step
    (Movie.mk mid ti rd dir act cat none none none) tvn rfl htvnv
  have h8 := setEpisodeNo_step
    (Movie.mk mid ti rd dir act cat tvn none none) epn rfl hepnv
  have h9 := setAbout_step
    (Movie.mk mid ti rd dir act cat tvn epn none) abt rfl habtv
  unfold Movie.mkMovie
  rw [hS1, h1]
  dsimp only
  rw [hS2, h2]
  dsimp only
  rw [hS3, h3]
  dsimp only
  rw [h4]
  dsimp only
  rw [h5]
  dsimp only
  rw [hS6, h6]
  dsimp only
  rw [hS7, h7]
  dsimp only
  rw [hS8, h8]
  dsimp only
  rw [hS9, h9]

/-- Serializing a valid movie and reconstructing it through the validating
constructor reproduces exactly the same movie with unchanged director and
actor collections. -/
theorem convertRec2Obj_roundtrip (movieKeys : List String)
    (directors : DirectorMap) (actors : ActorMap) (k : String) (m : Movie)
    (hk : m.movieID ∉ movieKeys)
    (hok : movieOK directors actors k m = true) :
    Movie.convertRec2Obj movieKeys directors actors
      (Movie.toJSON directors actors m) = (directors, actors, some m) := by
  obtain ⟨mid, ti, rd, dir, act, cat, tvn, epn, abt⟩ := m
  unfold movieOK at hok
  simp only [Bool.and_eq_true] at hok
  obtain ⟨⟨⟨⟨⟨⟨⟨⟨⟨⟨⟨⟨⟨hA1, hA2⟩, hA3⟩, hA4⟩, hA5⟩, hA6⟩, hA7⟩, hA8⟩,
    hA9⟩, hA10⟩, hA11⟩, hA12⟩, hA13⟩, hA14⟩ := hok
  have hmidne : mid ≠ "" := by simpa using hA2
  have hmidbl : jsBlank mid = false := by simpa using hA3
  have htine : ti ≠ "" := by simpa using hA4
  have htibl : jsBlank ti = false := by simpa using hA5
  have htilen : ti.length ≤ 120 := by simpa using hA6
  have hdate : JSDate.lt rd (mkDate 1895 12 28) = false := by simpa using hA7
  have hnodup : act.Nodup := by simpa using hA9
  have hactfacts : ∀ i ∈ act, 1 ≤ i ∧ ∃ ac, mget actors i = some ac ∧
      ac.personId = i ∧ mid ∈ ac.actedInMovies := by
    intro i hi
    have hb := List.all_eq_true.mp hA10 i hi
    dsimp only at hb
    rcases hmg : mget actors i with _ | ac
    · rw [hmg] at hb
      simp at hb
    · rw [hmg] at hb
      simp only [Bool.and_eq_true, decide_eq_true_eq] at hb
      exact ⟨hb.1, ac, rfl, hb.2.1, hb.2.2⟩
  have hdirres : ∀ di, dir = some di → ∃ dd, mget directors di = some dd ∧
      dd.personId = di ∧ mid ∈ dd.directedMovies := by
    intro di hdi
    rw [hdi] at hA8
    dsimp only at hA8
    rcases hmgd : mget directors di with _ | dd
    · rw [hmgd] at hA8
      simp at hA8
    · rw [hmgd] at hA8
      simp only [Bool.and_eq_true, decide_eq_true_eq] at hA8
      exact ⟨dd, rfl, hA8.1, hA8.2⟩
  have hcatv : ∀ c, cat = some c → c = 1 ∨ c = 2 := by
    intro c hc
    rw [hc] at hA11
    simpa using hA11
  have hepnv : ∀ v, epn = some v → cat = some 1 ∧ truthy v = true ∧
      isIntegerOrIntegerString v = true ∧ 1 ≤ (parseIntJS v).getD 0 := by
    intro v hv
    rw [hv] at hA12
    simp only [Bool.and_eq_true, decide_eq_true_eq] at hA12
    exact ⟨hA12.1.1.1, hA12.1.1.2, hA12.1.2, hA12.2⟩
  have habtv : ∀ s, abt = some s → cat = some 2 ∧ s ≠ "" ∧
      jsBlank s = false := by
    intro s hs
    rw [hs] at hA13
    simp only [Bool.and_eq_true, decide_eq_true_eq, bne_iff_ne, ne_eq,
      Bool.not_eq_true'] at hA13
    exact ⟨hA13.1.1, hA13.1.2, hA13.2⟩
  have htvnv : ∀ s, tvn = some s → s ≠ "" ∧ jsBlank s = false := by
    intro s hs
    rw [hs] at hA14
    simp only [Bool.and_eq_true, bne_iff_ne, ne_eq, Bool.not_eq_true'] at hA14
    exact hA14
  have hS5 : (Movie.toJSON directors actors
      (Movie.mk mid ti rd dir act cat tvn epn abt)).toSlots.actor =
      ActorArg.objs act := by
    show ActorArg.objs ((act.filterMap fun i =>
        (mget actors i).map Actor.toJSON).map ActorRecord.personId) =
      ActorArg.objs act
    rw [actor_records_personIds actors act
      (fun i hi => ((hactfacts i hi).2).imp fun ac hc => ⟨hc.1, hc.2.1⟩)]
  unfold Movie.convertRec2Obj
  rw [mkMovie_restore movieKeys directors actors
    (Movie.toJSON directors actors
      (Movie.mk mid ti rd dir act cat tvn epn abt)).toSlots
    mid ti rd dir act cat tvn epn abt rfl rfl rfl
    (by
      rcases dir with _ | di
      · rfl
      · obtain ⟨dd, hmgd, hpid, _⟩ := hdirres di rfl
        show (match ((some di).bind fun i =>
            (mget directors i).map Director.toJSON) with
          | some dr => RefArg.obj dr.personId
          | none => RefArg.val .undef) = RefArg.obj di
        rw [show ((some di).bind fun i =>
            (mget directors i).map Director.toJSON) =
            (mget directors di).map Director.toJSON from rfl, hmgd]
        dsimp only [Option.map]
        rw [show (Director.toJSON dd).personId = dd.personId from rfl, hpid])
    hS5 rfl rfl rfl rfl
    hk hmidne hmidbl htine htibl htilen hdate
    (fun di hdi => ((hdirres di hdi).imp fun dd hc => ⟨hc.1, hc.2.2⟩))
    (fun i hi => ⟨(hactfacts i hi).1,
      ((hactfacts i hi).2).imp fun ac hc => ⟨hc.1, hc.2.2⟩⟩)
    hnodup hcatv htvnv hepnv habtv]

theorem movieOK_key (directors : DirectorMap) (actors : ActorMap) (k : String)
    (m : Movie) (h : movieOK directors actors k m = true) : m.movieID = k := by
  unfold movieOK at h
  simp only [Bool.and_eq_true, decide_eq_true_eq] at h
  exact h.1.1.1.1.1.1.1.1.1.1.1.1.1

/-- The Movie.retrieveAll loop over the serialized records of a valid movie
collection rebuilds exactly that collection (each entry present, non-null)
and leaves the director and actor collections unchanged. -/
theorem Movie.retrieveAllAux_roundtrip_movie (directors : DirectorMap)
    (actors : ActorMap) (movies : List (String × Movie)) :
    ∀ acc : List (String × Option Movie),
      (acc.map Prod.fst ++ movies.map Prod.fst).Nodup →
      (∀ q ∈ movies, movieOK directors actors q.1 q.2 = true) →
      Movie.retrieveAllAux directors actors acc
          (movies.map fun q => (q.1, Movie.toJSON directors actors q.2)) =
        (directors, actors, acc ++ movies.map fun q => (q.1, some q.2)) := by
  induction movies with
  | nil =>
    intro acc _ _
    simp [Movie.retrieveAllAux]
  | cons hd t ih =>
    obtain ⟨k, mv⟩ := hd
    intro acc hnd hok
    have hkok := hok (k, mv) (List.mem_cons_self _ _)
    have hmidk : mv.movieID = k := movieOK_key directors actors k mv hkok
    have hknotacc : k ∉ acc.map Prod.fst := by
      simp only [List.map_cons] at hnd
      have := (List.nodup_append.mp hnd).2.2
      intro hmem
      exact this hmem (by simp)
    dsimp only [List.map_cons]
    unfold Movie.retrieveAllAux
    rw [convertRec2Obj_roundtrip (acc.map Prod.fst) directors actors k mv
      (by rw [hmidk]; exact hknotacc) hkok]
    dsimp only
    rw [mput_of_not_mem acc k (some mv) hknotacc]
    have hrw := ih (acc ++ [(k, some mv)])
      (by
        rw [List.map_append, List.append_assoc]
        simpa using hnd)
      (fun q hq => hok q (List.mem_cons_of_mem _ hq))
    rw [hrw, List.append_assoc, List.singleton_append]

/-! Claim theorems. -/

/-- Claim C7: the claim states that checkPersonIdAsId returns a violation for
every candidate that is not a positive integer (non-positive, non-integer or
missing) or already used in the same concrete subtype, and NoConstraintViolation
for a fresh positive integer.  This fails on the code: parseInt(0) is 0, not
NaN, so the mandatory branch of checkPersonIdAsId is skipped, and checkPersonId
accepts 0 through its falsy shortcut, so `checkPersonIdAsId(0, Person)` on an
empty collection is NoConstraintViolation; likewise parseInt truncates the
non-integer string "2.5" to the accepted 2. -/
theorem Person.checkPersonIdAsId_accepts_zero :
    Person.checkPersonIdAsId (.num 0) [] = .noViolation ∧
    Person.checkPersonIdAsId (.str "2.5") [] = .noViolation := by
  constructor <;> rfl

/-- Claim C5: the claim states that a releaseDate on or after 1895-12-28 is
accepted and that Movie.add with releaseDate 1800-01-01 fails with an interval
violation leaving the collection unchanged.  On the code, YEAR_FIRST_MOVIE is
`new Date(1895, 12, 28)` which, months being 0-based, is 1896-01-28, so
1895-12-28 itself (and every date up to 1896-01-27) is rejected; and the
rejecting branch constructs IntervalConstraintViolation, an identifier
Movie.mjs does not import, so the failure is a ReferenceError rather than an
interval violation.  The collection is indeed left unchanged, because
Movie.add catches any exception. -/
theorem Movie.checkReleaseDate_cutoff_bug :
    Movie.checkReleaseDate (some (mkDate 1895 11 28)) =
      .referenceError "IntervalConstraintViolation is not defined" ∧
    Movie.checkReleaseDate (some (mkDate 1896 0 27)) =
      .referenceError "IntervalConstraintViolation is not defined" ∧
    Movie.checkReleaseDate (some (mkDate 1896 0 28)) = .noViolation ∧
    (Movie.mkMovie [] [] [] exSlots1800).2.2 =
      .error (.referenceError "IntervalConstraintViolation is not defined") ∧
    Movie.add exEmptyDB exSlots1800 = exEmptyDB := by
  refine ⟨rfl, rfl, rfl, rfl, by decide⟩

/-- Claim C3: the claim states that assigning an unresolvable person-id
reference to a Movie's director or actor set fails with a
referential-integrity violation and installs nothing.  On the code the
director and actor setters never invoke the referential-integrity checks:
assigning director 99 when no director 99 exists first removes the movie from
the old director's directedMovies, sets `_director` to undefined and then
raises a TypeError; addPerson with an unresolved id records the key in
`_actor` (bound to undefined) and raises a TypeError.  The check layer itself
(never called by the setters) would have returned the
ReferentialIntegrityConstraintViolation. -/
theorem Movie.setDirector_unresolved_typeError :
    Movie.setDirector [(1, exDirector)] exMovie (.val (.num 99)) =
      ([(1, { exDirector with directedMovies := [] })],
       { exMovie with director := none },
       some (.typeError "Cannot read properties of undefined reading directedMovies")) ∧
    Movie.addPerson [] exMovie (.val (.num 7)) =
      ([], { exMovie with actor := [7] },
       some (.typeError "Cannot read properties of undefined reading actedInMovies")) ∧
    Person.checkPersonIdAsIdRef (.num 99) [1] =
      .referentialIntegrity "There is no person record with this person ID!" := by
  refine ⟨rfl, rfl, rfl⟩

/-- Claim C2: for every Movie, the first assignment of category with a valid
enumeration code (an integer between 1 and MovieCategoryEL.MAX) succeeds and
commits the parsed value, and any second assignment — with any value,
including the stored one — is refused with a FrozenValue violation, leaving
the stored category unchanged (the setter throws before committing). -/
theorem Movie.setCategory_write_once (m : Movie) (c : JSVal)
    (h0 : m.category = none)
    (h1 : isIntegerOrIntegerString c = true)
    (h2 : 1 ≤ (parseIntJS c).getD 0)
    (h3 : (parseIntJS c).getD 0 ≤ MovieCategoryEL.MAX) :
    Movie.setCategory m c =
      .ok { m with category := some ((parseIntJS c).getD 0) } ∧
    ∀ c2, Movie.setCategory { m with category := some ((parseIntJS c).getD 0) } c2 =
      .error (.frozenValue "The category cannot be changed!") := by
  have hundef : c ≠ .undef := by
    intro h
    subst h
    simp [isIntegerOrIntegerString] at h1
  have hc : Movie.checkCategory c = .noViolation := by
    unfold Movie.checkCategory
    rw [if_neg hundef, if_pos ⟨h1, h2, h3⟩]
  constructor
  · unfold Movie.setCategory
    rw [h0]
    simp [optTruthy, hc]
  · intro c2
    unfold Movie.setCategory
    have hne : (parseIntJS c).getD 0 ≠ 0 := by omega
    simp [optTruthy, hne]

/-- Witness for C2: a fresh movie accepts category 1 once, and the second
assignment of the very same value is refused as frozen. -/
theorem Movie.setCategory_write_once_witness :
    Movie.setCategory exMovie (.num 1) =
      .ok { exMovie with category := some 1 } ∧
    Movie.setCategory { exMovie with category := some 1 } (.num 1) =
      .error (.frozenValue "The category cannot be changed!") := by
  have h := Movie.setCategory_write_once exMovie (.num 1) (by decide) (by decide)
    (by decide) (by decide)
  exact ⟨h.1, h.2 (.num 1)⟩

/-- Claim C6: with the stored category TVSERIESEPISODE, a falsy (unset)
episodeNo candidate yields MandatoryValue; with any other stored category a
truthy episodeNo candidate yields a violation (the base
ConstraintViolation); symmetrically for about and BIOGRAPHY.  Stated on the
check functions, which the setters invoke with the stored category as
context. -/
theorem Movie.checkEpisodeNo_checkAbout_category_dependent (m : Movie)
    (v w : JSVal) :
    (m.category = some MovieCategoryEL.TVSERIESEPISODE → truthy v = false →
      Movie.checkEpisodeNo v (optIntToJS m.category) =
        .mandatoryValue "An episode number must be provided for a textmovie!") ∧
    (m.category ≠ some MovieCategoryEL.TVSERIESEPISODE → truthy v = true →
      Movie.checkEpisodeNo v (optIntToJS m.category) =
        .constraintViolation "An episode number must not be provided if the movie is not a TV series!") ∧
    (m.category = some MovieCategoryEL.BIOGRAPHY → truthy w = false →
      Movie.checkAbout w (optIntToJS m.category) =
        .mandatoryValue "A biography movie record must have an about field!") ∧
    (m.category ≠ some MovieCategoryEL.BIOGRAPHY → truthy w = true →
      Movie.checkAbout w (optIntToJS m.category) =
        .constraintViolation "An about field value must not be provided if the movie is not a biography!") := by
  refine ⟨?_, ?_, ?_, ?_⟩
  · intro hcat hv
    rw [hcat]
    simp [Movie.checkEpisodeNo, optIntToJS, parseIntJS, hv]
  · intro hcat hv
    have hne : parseIntJS (optIntToJS m.category) ≠
        some MovieCategoryEL.TVSERIESEPISODE := by
      cases hmc : m.category with
      | none => simp [optIntToJS, parseIntJS]
      | some n =>
        simp only [optIntToJS, parseIntJS, Option.some_inj]
        intro h
        exact hcat (by rw [hmc, h])
    simp [Movie.checkEpisodeNo, hne, hv]
  · intro hcat hw
    rw [hcat]
    simp [Movie.checkAbout, optIntToJS, parseIntJS, hw, MovieCategoryEL.BIOGRAPHY,
      MovieCategoryEL.TVSERIESEPISODE]
  · intro hcat hw
    have hne : parseIntJS (optIntToJS m.category) ≠
        some MovieCategoryEL.BIOGRAPHY := by
      cases hmc : m.category with
      | none => simp [optIntToJS, parseIntJS]
      | some n =>
        simp only [optIntToJS, parseIntJS, Option.some_inj]
        intro h
        exact hcat (by rw [hmc, h])
    simp [Movie.checkAbout, hne, hw]

/-- Witness for C6: at category TVSERIESEPISODE an undefined episodeNo is
mandatory-violating; at category BIOGRAPHY a supplied episodeNo is a
violation, an undefined about is mandatory-violating; at category
TVSERIESEPISODE a supplied about is a violation. -/
theorem Movie.checkEpisodeNo_checkAbout_category_dependent_witness :
    Movie.checkEpisodeNo .undef (optIntToJS (some MovieCategoryEL.TVSERIESEPISODE)) =
      .mandatoryValue "An episode number must be provided for a textmovie!" ∧
    Movie.checkEpisodeNo (.num 6) (optIntToJS (some MovieCategoryEL.BIOGRAPHY)) =
      .constraintViolation "An episode number must not be provided if the movie is not a TV series!" ∧
    Movie.checkAbout .undef (optIntToJS (some MovieCategoryEL.BIOGRAPHY)) =
      .mandatoryValue "A biography movie record must have an about field!" ∧
    Movie.checkAbout (.str "14") (optIntToJS (some MovieCategoryEL.TVSERIESEPISODE)) =
      .constraintViolation "An about field value must not be provided if the movie is not a biography!" := by
  have h1 := Movie.checkEpisodeNo_checkAbout_category_dependent
    { exMovie with category := some MovieCategoryEL.TVSERIESEPISODE } .undef (.str "14")
  have h2 := Movie.checkEpisodeNo_checkAbout_category_dependent
    { exMovie with category := some MovieCategoryEL.BIOGRAPHY } (.num 6) .undef
  exact ⟨h1.1 rfl (by decide), h2.2.1 (by decide) (by decide),
    h2.2.2.1 rfl (by decide), h1.2.2.2 (by decide) (by decide)⟩

/-- Claim C10: Movie.destroy of an existing movie deletes only that entry of
Movie.instances and leaves everything else unchanged; in particular the
former director's directedMovies entry and each former actor's actedInMovies
entry for the destroyed movie survive, since the director and actor
collections are untouched. -/
theorem Movie.destroy_frame (db : MovieDB) (mid : String) (m : Movie)
    (hm : mget db.movies mid = some m)
    (hnd : (db.movies.map Prod.fst).Nodup) :
    (Movie.destroy db mid).directors = db.directors ∧
    (Movie.destroy db mid).actors = db.actors ∧
    mget (Movie.destroy db mid).movies mid = none ∧
    (∀ k, k ≠ mid → mget (Movie.destroy db mid).movies k = mget db.movies k) ∧
    (∀ i d, m.director = some i → mget db.directors i = some d →
      mget (Movie.destroy db mid).directors i = some d ∧
      (mid ∈ d.directedMovies → mid ∈ d.directedMovies)) ∧
    (∀ i a, i ∈ m.actor → mget db.actors i = some a →
      mget (Movie.destroy db mid).actors i = some a ∧
      (mid ∈ a.actedInMovies → mid ∈ a.actedInMovies)) := by
  unfold Movie.destroy
  rw [hm]
  refine ⟨rfl, rfl, mget_mdel_self _ _ hnd, ?_, ?_, ?_⟩
  · intro k hk
    exact mget_mdel_ne _ _ _ (Ne.symm hk)
  · intro i d _ hd
    exact ⟨hd, fun h => h⟩
  · intro i a _ ha
    exact ⟨ha, fun h => h⟩

/-- Witness for C10: destroying movie "10" from a database where director 1
and actor 3 both back-reference it removes only the movie entry; the
back-references survive. -/
theorem Movie.destroy_frame_witness :
    mget ({ directors := [(1, exDirector)]
            actors := [(3, { personId := 3, name := "Quentin Tarantino"
                             agent := none, actedInMovies := ["10"] })]
            movies := [("10", { exMovie with actor := [3] })] } : MovieDB).movies
      "10" = some { exMovie with actor := [3] } ∧
    (Movie.destroy { directors := [(1, exDirector)]
                     actors := [(3, { personId := 3, name := "Quentin Tarantino"
                                      agent := none, actedInMovies := ["10"] })]
                     movies := [("10", { exMovie with actor := [3] })] }
      "10").directors = [(1, exDirector)] ∧
    mget (Movie.destroy { directors := [(1, exDirector)]
                          actors := [(3, { personId := 3, name := "Quentin Tarantino"
                                           agent := none, actedInMovies := ["10"] })]
                          movies := [("10", { exMovie with actor := [3] })] }
      "10").movies "10" = none := by
  have h := Movie.destroy_frame
    { directors := [(1, exDirector)]
      actors := [(3, { personId := 3, name := "Quentin Tarantino"
                       agent := none, actedInMovies := ["10"] })]
      movies := [("10", { exMovie with actor := [3] })] }
    "10" { exMovie with actor := [3] } (by decide) (by decide)
  exact ⟨by decide, h.1, h.2.2.1⟩

/-- Claim C1: assigning a movie's director to a person id P that resolves to
an existing Director makes Director.instances[P].directedMovies contain the
movie's id (and installs the reference); afterwards unsetting the director, or
reassigning it to a different resolvable director Q, removes the movie's id
from P's directedMovies (and, for the reassignment, adds it to Q's): the
reference and the back-reference co-exist or are both absent. -/
theorem Movie.setDirector_backref_invariant (directors : DirectorMap)
    (m : Movie) (P Q : Int) (dp dq : Director)
    (hP0 : P ≠ 0) (hQ0 : Q ≠ 0) (hPQ : P ≠ Q)
    (hP : mget directors P = some dp) (hQ : mget directors Q = some dq) :
    ∀ d1 m1 e1, Movie.setDirector directors m (.val (.num P)) = (d1, m1, e1) →
      e1 = none ∧ m1.director = some P ∧
      (∃ dp1, mget d1 P = some dp1 ∧ m.movieID ∈ dp1.directedMovies) ∧
      (∀ d2 m2 e2, Movie.setDirector d1 m1 (.val .undef) = (d2, m2, e2) →
        m2.director = none ∧
        ∀ dp2, mget d2 P = some dp2 → m.movieID ∉ dp2.directedMovies) ∧
      (∀ d3 m3 e3, Movie.setDirector d1 m1 (.val (.num Q)) = (d3, m3, e3) →
        m3.director = some Q ∧
        (∀ dp3, mget d3 P = some dp3 → m.movieID ∉ dp3.directedMovies) ∧
        (∃ dq3, mget d3 Q = some dq3 ∧ m.movieID ∈ dq3.directedMovies)) := by
  obtain ⟨d1x, heq, ⟨dp1, hdp1, hmem⟩, hpres⟩ :=
    setDirector_assign directors m P dp hP hP0
  intro d1 m1 e1 h1
  rw [heq] at h1
  simp only [Prod.mk.injEq] at h1
  obtain ⟨rfl, rfl, rfl⟩ := h1
  obtain ⟨dq1, hq1⟩ := hpres Q dq (Ne.symm hPQ) hQ
  refine ⟨rfl, rfl, ⟨dp1, hdp1, hmem⟩, ?_, ?_⟩
  · intro d2 m2 e2 h2
    rw [setDirector_unset d1x { m with director := some P } P rfl] at h2
    simp only [Prod.mk.injEq] at h2
    obtain ⟨rfl, rfl, rfl⟩ := h2
    refine ⟨rfl, ?_⟩
    intro dp2 hdp2
    rw [mget_mmod_self, hdp1] at hdp2
    simp only [Option.map_some', Option.some_inj] at hdp2
    subst hdp2
    exact not_mem_sdel _ _
  · intro d3 m3 e3 h3
    have hqm : mget (mmod d1x P
        (fun d => { d with directedMovies := sdel d.directedMovies m.movieID }))
        Q = some dq1 := by
      rw [mget_mmod_ne _ _ _ _ hPQ]
      exact hq1
    rw [setDirector_reassign d1x { m with director := some P } P Q dq1 rfl hQ0 hqm]
      at h3
    simp only [Prod.mk.injEq] at h3
    obtain ⟨rfl, rfl, rfl⟩ := h3
    refine ⟨rfl, ?_, ?_⟩
    · intro dp3 hdp3
      rw [mget_mmod_ne _ _ _ _ (Ne.symm hPQ), mget_mmod_self, hdp1] at hdp3
      simp only [Option.map_some', Option.some_inj] at hdp3
      subst hdp3
      exact not_mem_sdel _ _
    · refine ⟨{ dq1 with directedMovies := sadd dq1.directedMovies m.movieID }, ?_, ?_⟩
      · rw [mget_mmod_self, hqm]
        rfl
      · exact mem_sadd _ _

/-- Witness for C1: in a database with directors 1 and 2, assigning movie
"10" the director 1 records "10" in director 1's directedMovies; unsetting
removes it; reassigning to director 2 removes it from director 1 and records
it under director 2. -/
theorem Movie.setDirector_backref_invariant_witness :
    (Movie.setDirector [(1, exDirector), (2, exDirector2)] exMovie
      (.val (.num 1))).2.2 = none ∧
    "10" ∈ ((mget (Movie.setDirector [(1, exDirector), (2, exDirector2)] exMovie
      (.val (.num 1))).1 1).getD exDirector2).directedMovies ∧
    "10" ∉ ((mget (Movie.setDirector
      (Movie.setDirector [(1, exDirector), (2, exDirector2)] exMovie (.val (.num 1))).1
      (Movie.setDirector [(1, exDirector), (2, exDirector2)] exMovie (.val (.num 1))).2.1
      (.val .undef)).1 1).getD exDirector).directedMovies ∧
    "10" ∉ ((mget (Movie.setDirector
      (Movie.setDirector [(1, exDirector), (2, exDirector2)] exMovie (.val (.num 1))).1
      (Movie.setDirector [(1, exDirector), (2, exDirector2)] exMovie (.val (.num 1))).2.1
      (.val (.num 2))).1 1).getD exDirector).directedMovies ∧
    "10" ∈ ((mget (Movie.setDirector
      (Movie.setDirector [(1, exDirector), (2, exDirector2)] exMovie (.val (.num 1))).1
      (Movie.setDirector [(1, exDirector), (2, exDirector2)] exMovie (.val (.num 1))).2.1
      (.val (.num 2))).1 2).getD exDirector2).directedMovies := by
  have h := Movie.setDirector_backref_invariant [(1, exDirector), (2, exDirector2)]
    exMovie 1 2 exDirector exDirector2 (by decide) (by decide) (by decide)
    (by decide) (by decide)
  have h1 := h
    (Movie.setDirector [(1, exDirector), (2, exDirector2)] exMovie (.val (.num 1))).1
    (Movie.setDirector [(1, exDirector), (2, exDirector2)] exMovie (.val (.num 1))).2.1
    (Movie.setDirector [(1, exDirector), (2, exDirector2)] exMovie (.val (.num 1))).2.2
    rfl
  obtain ⟨he1, hd1, ⟨dp1, hdp1, hm1⟩, hun, hre⟩ := h1
  have h2 := hun
    (Movie.setDirector
      (Movie.setDirector [(1, exDirector), (2, exDirector2)] exMovie (.val (.num 1))).1
      (Movie.setDirector [(1, exDirector), (2, exDirector2)] exMovie (.val (.num 1))).2.1
      (.val .undef)).1
    (Movie.setDirector
      (Movie.setDirector [(1, exDirector), (2, exDirector2)] exMovie (.val (.num 1))).1
      (Movie.setDirector [(1, exDirector), (2, exDirector2)] exMovie (.val (.num 1))).2.1
      (.val .undef)).2.1
    (Movie.setDirector
      (Movie.setDirector [(1, exDirector), (2, exDirector2)] exMovie (.val (.num 1))).1
      (Movie.setDirector [(1, exDirector), (2, exDirector2)] exMovie (.val (.num 1))).2.1
      (.val .undef)).2.2
    rfl
  have h3 := hre
    (Movie.setDirector
      (Movie.setDirector [(1, exDirector), (2, exDirector2)] exMovie (.val (.num 1))).1
      (Movie.setDirector [(1, exDirector), (2, exDirector2)] exMovie (.val (.num 1))).2.1
      (.val (.num 2))).1
    (Movie.setDirector
      (Movie.setDirector [(1, exDirector), (2, exDirector2)] exMovie (.val (.num 1))).1
      (Movie.setDirector [(1, exDirector), (2, exDirector2)] exMovie (.val (.num 1))).2.1
      (.val (.num 2))).2.1
    (Movie.setDirector
      (Movie.setDirector [(1, exDirector), (2, exDirector2)] exMovie (.val (.num 1))).1
      (Movie.setDirector [(1, exDirector), (2, exDirector2)] exMovie (.val (.num 1))).2.1
      (.val (.num 2))).2.2
    rfl
  refine ⟨he1, ?_, ?_, ?_, ?_⟩
  · rw [hdp1]
    exact hm1
  · have hv : mget (Movie.setDirector
        (Movie.setDirector [(1, exDirector), (2, exDirector2)] exMovie (.val (.num 1))).1
        (Movie.setDirector [(1, exDirector), (2, exDirector2)] exMovie (.val (.num 1))).2.1
        (.val .undef)).1 1 =
        some { exDirector with directedMovies := [] } := by decide
    rw [hv]
    exact h2.2 _ hv
  · have hv : mget (Movie.setDirector
        (Movie.setDirector [(1, exDirector), (2, exDirector2)] exMovie (.val (.num 1))).1
        (Movie.setDirector [(1, exDirector), (2, exDirector2)] exMovie (.val (.num 1))).2.1
        (.val (.num 2))).1 1 =
        some { exDirector with directedMovies := [] } := by decide
    rw [hv]
    exact h3.2.1 _ hv
  · obtain ⟨dq3, hdq3, hmq⟩ := h3.2.2
    rw [hdq3]
    exact hmq

/-- Claim C4: for an existing movie, if any field assignment inside
Movie.update raises a violation, the entry Movie.instances[movieID] after
Movie.update equals the pre-update snapshot (all-or-nothing for the
collection entry); on success, only the fields that were present and
different from the stored values were changed: the id and tvSeriesName are
never touched, and every field whose slot is absent (or, for the
value-compared fields, strictly equal to the stored value) is unchanged. -/
theorem Movie.update_all_or_nothing (db : MovieDB) (s : UpdateSlots)
    (m : Movie) (hm : mget db.movies s.movieID = some m) :
    (∀ v, (Movie.update db s).2 = some v →
      mget (Movie.update db s).1.movies s.movieID = some m) ∧
    ((Movie.update db s).2 = none →
      ∃ m7, mget (Movie.update db s).1.movies s.movieID = some m7 ∧
        m7.movieID = m.movieID ∧ m7.tvSeriesName = m.tvSeriesName ∧
        (truthy s.title = false ∨ s.title = JSVal.str m.title →
          m7.title = m.title) ∧
        (s.releaseDate = none → m7.releaseDate = m.releaseDate) ∧
        (RefArg.truthyArg s.director = false → m7.director = m.director) ∧
        (ActorArg.truthyArg s.actor = false → m7.actor = m.actor) ∧
        (truthy s.category = false → m7.category = m.category) ∧
        (truthy s.episodeNo = false ∨ m.episodeNo = some s.episodeNo →
          m7.episodeNo = m.episodeNo) ∧
        (truthy s.about = false ∨ optStrToJS m.about = s.about →
          m7.about = m.about)) := by
  unfold Movie.update
  rw [hm]
  dsimp only
  rcases hru : Movie.updateFields db.directors db.actors m s with ⟨d1, a1, m7, e⟩
  rcases e with _ | v
  · constructor
    · intro v hv
      dsimp only at hv
      cases hv
    · intro _
      exact ⟨m7, mget_mput_self _ _ _,
        updateFields_ok_fields _ _ _ _ _ _ _ hru⟩
  · constructor
    · intro v' _
      exact mget_mput_self _ _ _
    · intro h0
      dsimp only at h0
      cases h0

/-- Witness for C4: updating movie "10" with a bad title restores the entry;
updating with only a new title changes the title and nothing else. -/
theorem Movie.update_all_or_nothing_witness :
    (Movie.update { directors := [], actors := [], movies := [("10", exMovie)] }
      { movieID := "10", title := .num 7, releaseDate := none
        director := .val .undef, actor := .undef, category := .undef
        episodeNo := .undef, about := .undef }).2 =
      some (.range "The title must be a non-empty string!") ∧
    mget (Movie.update { directors := [], actors := [], movies := [("10", exMovie)] }
      { movieID := "10", title := .num 7, releaseDate := none
        director := .val .undef, actor := .undef, category := .undef
        episodeNo := .undef, about := .undef }).1.movies "10" = some exMovie ∧
    (∃ m7, mget (Movie.update
        { directors := [], actors := [], movies := [("10", exMovie)] }
        { movieID := "10", title := .str "T2", releaseDate := none
          director := .val .undef, actor := .undef, category := .undef
          episodeNo := .undef, about := .undef }).1.movies "10" = some m7 ∧
      m7.movieID = exMovie.movieID ∧ m7.releaseDate = exMovie.releaseDate ∧
      m7.director = exMovie.director ∧ m7.actor = exMovie.actor ∧
      m7.category = exMovie.category ∧ m7.episodeNo = exMovie.episodeNo ∧
      m7.about = exMovie.about) := by
  have h1 := Movie.update_all_or_nothing
    { directors := [], actors := [], movies := [("10", exMovie)] }
    { movieID := "10", title := .num 7, releaseDate := none
      director := .val .undef, actor := .undef, category := .undef
      episodeNo := .undef, about := .undef } exMovie (by decide)
  have h2 := Movie.update_all_or_nothing
    { directors := [], actors := [], movies := [("10", exMovie)] }
    { movieID := "10", title := .str "T2", releaseDate := none
      director := .val .undef, actor := .undef, category := .undef
      episodeNo := .undef, about := .undef } exMovie (by decide)
  have he : (Movie.update { directors := [], actors := [], movies := [("10", exMovie)] }
      { movieID := "10", title := .num 7, releaseDate := none
        director := .val .undef, actor := .undef, category := .undef
        episodeNo := .undef, about := .undef }).2 =
      some (.range "The title must be a non-empty string!") := by decide
  have hok : (Movie.update { directors := [], actors := [], movies := [("10", exMovie)] }
      { movieID := "10", title := .str "T2", releaseDate := none
        director := .val .undef, actor := .undef, category := .undef
        episodeNo := .undef, about := .undef }).2 = none := by decide
  refine ⟨he, h1.1 _ he, ?_⟩
  obtain ⟨m7, hget, hmid, htv, htl, hrd, hdir, hact, hcat, hep, hab⟩ :=
    h2.2 hok
  exact ⟨m7, hget, hmid, hrd rfl, hdir rfl, hact rfl, hcat rfl,
    hep (Or.inl rfl), hab (Or.inl rfl)⟩

/-- A fresh valid record with no references constructs successfully at every
fold point not containing its key, leaving the collections untouched. -/
theorem mkMovie_goodRec_ok (ks : List String) (d : DirectorMap) (a : ActorMap)
    (hk : "good" ∉ ks) :
    Movie.mkMovie ks d a goodRec.toSlots =
      (d, a, .ok { movieID := "good", title := "T"
                   releaseDate := mkDate 2000 0 1, director := none
                   actor := [], category := none, tvSeriesName := none
                   episodeNo := none, about := none }) := by
  have hc : Movie.checkMovieIDAsId (.str "good") ks = .noViolation := by
    show (if "good" ∈ ks then
        Violation.uniqueness "There is already a movie record with this Movie ID!"
      else Violation.noViolation) = Violation.noViolation
    rw [if_neg hk]
  have h1 : Movie.setMovieID ks movie0 (.str "good") =
      .ok { movie0 with movieID := "good" } := by
    unfold Movie.setMovieID
    rw [hc]
    rfl
  unfold Movie.mkMovie
  rw [show goodRec.toSlots.movieID = JSVal.str "good" from rfl, h1]
  rfl

/-- Counterexample for C9: on a persisted collection holding the corrupt
record "bad" (empty title) and the valid record "good", Movie.retrieveAll
loads "good" but binds "bad" to null in Movie.instances — an entry for the
corrupt record is inserted, contrary to the claim. -/
theorem Movie.retrieveAll_null_entry_counterexample :
    mget (Movie.retrieveAll [("bad", corruptRec), ("good", goodRec)]
      [] [] []).2.2 "bad" = some none ∧
    mget (Movie.retrieveAll [("bad", corruptRec), ("good", goodRec)]
      [] [] []).2.2 "good" =
      some (some { movieID := "good", title := "T"
                   releaseDate := mkDate 2000 0 1, director := none
                   actor := [], category := none, tvSeriesName := none
                   episodeNo := none, about := none }) := by
  exact ⟨by decide, by decide⟩

/-- Claim C9 (amended): retrieveAll processes every persisted record — one
corrupt record never aborts loading the rest: every key of the storage ends
up with an entry, a record whose construction fails is logged and skipped
(for Person.retrieveAll no entry is inserted, but Movie.retrieveAll binds the
corrupt record's key to null), and a record whose construction succeeds is
loaded as a movie object. -/
theorem retrieveAll_per_record_isolation
    (storage : List (String × MovieRecord)) (directors : DirectorMap)
    (actors : ActorMap) (pstorage : List (Int × PersonRecord))
    (hnd : (storage.map Prod.fst).Nodup)
    (hpnd : (pstorage.map Prod.fst).Nodup) :
    (∀ k rec, (k, rec) ∈ storage →
      (mget (Movie.retrieveAll storage directors actors []).2.2 k).isSome) ∧
    (∀ k rec, (k, rec) ∈ storage →
      (∀ ks (d : DirectorMap) (a : ActorMap),
        ∃ v, (Movie.mkMovie ks d a rec.toSlots).2.2 = .error v) →
      mget (Movie.retrieveAll storage directors actors []).2.2 k = some none) ∧
    (∀ k rec, (k, rec) ∈ storage →
      (∀ ks (d : DirectorMap) (a : ActorMap), k ∉ ks →
        ∃ mv, (Movie.mkMovie ks d a rec.toSlots).2.2 = .ok mv) →
      ∃ mv, mget (Movie.retrieveAll storage directors actors []).2.2 k =
        some (some mv)) ∧
    (∀ k rec, (k, rec) ∈ pstorage →
      (∀ ks, ∃ v, Person.mkPerson ks rec.toSlots = .error v) →
      mget (Person.retrieveAllAux [] pstorage) k = none) := by
  refine ⟨?_, ?_, ?_, ?_⟩
  · intro k rec hmem
    exact Movie.retrieveAllAux_isSome storage directors actors [] k
      (Or.inr (List.mem_map_of_mem Prod.fst hmem))
  · intro k rec hmem hbad
    obtain ⟨ks, d1, a1, hks, hmg⟩ :=
      Movie.retrieveAllAux_entry storage directors actors [] k rec hnd hmem
        (by simp)
    unfold Movie.retrieveAll
    rw [hmg]
    obtain ⟨v, hv⟩ := hbad ks d1 a1
    unfold Movie.convertRec2Obj
    rcases hmk : Movie.mkMovie ks d1 a1 rec.toSlots with ⟨dx, ax, exc⟩
    rw [hmk] at hv
    dsimp only at hv
    subst hv
    rfl
  · intro k rec hmem hgood
    obtain ⟨ks, d1, a1, hks, hmg⟩ :=
      Movie.retrieveAllAux_entry storage directors actors [] k rec hnd hmem
        (by simp)
    unfold Movie.retrieveAll
    rw [hmg]
    obtain ⟨mv, hv⟩ := hgood ks d1 a1 hks
    refine ⟨mv, ?_⟩
    unfold Movie.convertRec2Obj
    rcases hmk : Movie.mkMovie ks d1 a1 rec.toSlots with ⟨dx, ax, exc⟩
    rw [hmk] at hv
    dsimp only at hv
    subst hv
    rfl
  · intro k rec hmem hbad
    exact Person.retrieveAllAux_skip pstorage [] k rec hpnd hmem rfl hbad

/-- Witness for C9's amended claim at the mixed storages: the corrupt movie
record is bound to null, the valid one loads, and the corrupt person record
leaves no entry. -/
theorem retrieveAll_per_record_isolation_witness :
    mget (Movie.retrieveAll [("bad", corruptRec), ("good", goodRec)]
      [] [] []).2.2 "bad" = some none ∧
    (∃ mv, mget (Movie.retrieveAll [("bad", corruptRec), ("good", goodRec)]
      [] [] []).2.2 "good" = some (some mv)) ∧
    mget (Person.retrieveAllAux [] [(1, badPersonRec), (2, goodPersonRec)])
      1 = none := by
  have h := retrieveAll_per_record_isolation
    [("bad", corruptRec), ("good", goodRec)] [] []
    [(1, badPersonRec), (2, goodPersonRec)] (by decide) (by decide)
  refine ⟨?_, ?_, ?_⟩
  · exact h.2.1 "bad" corruptRec (by decide)
      (fun ks d a => mkMovie_error_of_bad_title ks d a corruptRec.toSlots
        (by decide))
  · exact h.2.2.1 "good" goodRec (by decide)
      (fun ks d a hk => ⟨_, by rw [mkMovie_goodRec_ok ks d a hk]⟩)
  · exact h.2.2.2 1 badPersonRec (by decide)
      (fun ks => mkPerson_error_of_bad_name ks badPersonRec.toSlots (by decide))

/-- C8 counterexample to the bare-id-reference part: Movie.toJSON copies the
underscore properties verbatim, so the persisted movie record embeds the
referenced director's complete record — its name and its directedMovies map
included — and the full actor records, not bare ID references. -/
theorem Movie.toJSON_embeds_object_graph :
    (Movie.toJSON [(1, exDirector)] [(2, wfActor)]
        { exMovie with actor := [2] }).director =
      some { personId := 1, name := "Stephen Frears", agent := none
             directedMovies := ["10"] } ∧
    (Movie.toJSON [(1, exDirector)] [(2, wfActor)]
        { exMovie with actor := [2] }).actor =
      [{ personId := 2, name := "A", agent := none
         actedInMovies := ["m1"] }] := by
  constructor
  · rfl
  · rfl

/-- C8 (amended): for a previously-valid population — well-formed keys, every
entry passing its validating checks, every reference resolving with its
back-reference in place — saveAll followed by clearing the in-memory state
and retrieveAll reproduces exactly the same population: same IDs, same field
values, same director/actor associations (the movie entries come back keyed
as before and non-null).  The records persisted on the way embed nested
person records rather than bare ID references, but the constructor consults
only their personId, so the round trip still closes. -/
theorem saveAll_retrieveAll_roundtrip (persons : List (Int × Person))
    (db : MovieDB) (h : WellFormed persons db) :
    roundTrip persons db =
      (persons, db.directors, db.actors,
        db.movies.map fun q => (q.1, some q.2)) := by
  obtain ⟨hpn, hdn, han, hmn, hpok, hdok, haok, hmok⟩ := h
  have hp : Person.retrieveAllAux [] (Person.saveAll persons) = persons := by
    exact Person.retrieveAllAux_roundtrip_person persons [] (by simpa using hpn) hpok
  have hd : Director.retrieveAllAux [] (Director.saveAll db.directors) =
      db.directors := by
    exact Director.retrieveAllAux_roundtrip_director db.directors []
      (by simpa using hdn) hdok
  have ha : Actor.retrieveAllAux [] (Actor.saveAll db.actors) =
      db.actors := by
    exact Actor.retrieveAllAux_roundtrip_actor db.actors [] (by simpa using han) haok
  have hm : Movie.retrieveAll (Movie.saveAll db) db.directors db.actors [] =
      (db.directors, db.actors, db.movies.map fun q => (q.1, some q.2)) := by
    exact Movie.retrieveAllAux_roundtrip_movie db.directors db.actors db.movies []
      (by simpa using hmn) hmok
  unfold roundTrip
  dsimp only
  rw [hd, ha, hm]
  dsimp only
  rw [hp]

/-- Witness for C8 at the sample population: its well-formedness holds by
evaluation and the round trip reproduces it exactly. -/
theorem saveAll_retrieveAll_roundtrip_witness :
    WellFormed wfPersons wfDB ∧
      roundTrip wfPersons wfDB =
        (wfPersons, wfDB.directors, wfDB.actors,
          wfDB.movies.map fun q => (q.1, some q.2)) :=
  have h : WellFormed wfPersons wfDB := by
    unfold WellFormed
    decide
  ⟨h, saveAll_retrieveAll_roundtrip wfPersons wfDB h⟩

end MovieApp
